import Mathlib

/-!
Verification of the `my_flow_app` conversational orchestration pipeline.

The definitions below are a shallow embedding of the Python backend
(`my_flow_api`): title normalization and dedup (`routers/conversations.py`),
defensive extraction parsing (`services/ai_service.py`), tool dispatch and
execution (`services/ai_tools.py`), the flow repository
(`repositories/flow_repository.py`), the conversation repository
(`repositories/conversation_repository.py`), the TTL cache
(`services/cache_service.py`), the OpenAI streaming adapter
(`AIService._stream_openai`) and the SSE generator (`generate_sse_stream`).
Machine-level Python behaviours (string methods, dict lookups, exception
classes) are modelled explicitly; fallible code returns `Except`.
-/

namespace MyFlow

/-! ### Python string primitives used by `_normalize_title`

`_normalize_title` (routers/conversations.py lines 33-37) does
`re.sub(r"[^a-z0-9\s]+", " ", title.lower())`, splits on whitespace,
drops stopwords and joins with the empty string. -/

/-- Whitespace characters recognized by Python `str.split()` and the regex
class `\s` (ASCII range: space, tab, newline, carriage return, vertical tab,
form feed). -/
def pyIsSpace (c : Char) : Bool :=
  c.toNat = 32 || c.toNat = 9 || c.toNat = 10 || c.toNat = 13 ||
    c.toNat = 11 || c.toNat = 12

/-- A character in the regex class `[a-z0-9]`. -/
def isLowerAlnum (c : Char) : Bool :=
  (97 ≤ c.toNat && c.toNat ≤ 122) || (48 ≤ c.toNat && c.toNat ≤ 57)

/-- Python `str.lower` on a single character (ASCII case mapping; non-ASCII
letters are irrelevant here because the subsequent regex substitution turns
every character outside `[a-z0-9\s]` into a space). -/
def pyLowerChar (c : Char) : Char :=
  if 65 ≤ c.toNat ∧ c.toNat ≤ 90 then Char.ofNat (c.toNat + 32) else c

/-- Python `str.lower` over a character list. -/
def pyLower (l : List Char) : List Char := l.map pyLowerChar

/-- Characters kept (not substituted) by `re.sub(r"[^a-z0-9\s]+", " ", _)`. -/
def keepChar (c : Char) : Bool := isLowerAlnum c || pyIsSpace c

/-- `re.sub(r"[^a-z0-9\s]+", " ", _)`: each maximal run of characters outside
`[a-z0-9\s]` is replaced by a single space.  The boolean flag records whether
we are inside such a run (in which case the single space was already
emitted). -/
def subRuns : List Char → Bool → List Char
  | [], _ => []
  | c :: rest, inRun =>
    if keepChar c then c :: subRuns rest false
    else if inRun then subRuns rest true
    else ' ' :: subRuns rest true

/-- Python `str.split()` with no separator: split on runs of whitespace,
discarding empty tokens.  `acc` is the current token, reversed. -/
def splitWsAux : List Char → List Char → List (List Char)
  | [], acc => if acc = [] then [] else [acc.reverse]
  | c :: rest, acc =>
    if pyIsSpace c then
      if acc = [] then splitWsAux rest []
      else acc.reverse :: splitWsAux rest []
    else splitWsAux rest (c :: acc)

/-- Python `str.split()` with no separator argument. -/
def pySplit (l : List Char) : List (List Char) := splitWsAux l []

/-- `STOPWORDS` set from routers/conversations.py line 30. -/
def STOPWORDS : List String := ["the", "a", "an", "to", "my", "your", "please"]

/-- The stopwords as character lists. -/
def stopwordChars : List (List Char) := STOPWORDS.map String.data

/-- The token list produced inside `_normalize_title`:
`[token for token in cleaned.split() if token and token not in STOPWORDS]`. -/
def normalizeTokens (l : List Char) : List (List Char) :=
  (pySplit (subRuns (pyLower l) false)).filter
    (fun t => decide (t ≠ []) && decide (t ∉ stopwordChars))

/-- `_normalize_title` (routers/conversations.py lines 33-37):
lowercase, substitute non-`[a-z0-9\s]` runs by a space, split on whitespace,
drop empty tokens and stopwords, and join with `""`. -/
def normalizeTitle (title : String) : String :=
  String.mk (normalizeTokens title.data).flatten

/-! ### JSON documents and Python exceptions

`_parse_flow_json` receives the provider text and runs `json.loads` on it.
`json.loads` is a library call: we model its outcome as an input
(`Except Unit Json`, `.error` = `json.JSONDecodeError`), and embed everything
the repository's own code does with the parsed document. -/

/-- A parsed JSON document (the result of a successful `json.loads`). -/
inductive Json where
  | null
  | bool (b : Bool)
  | num (n : Int)
  | str (s : String)
  | arr (items : List Json)
  | obj (fields : List (String × Json))

/-- Python dict lookup (`d.get(key)` without default); dict keys are unique,
modelled as first-match lookup in an association list. -/
def Json.lookupField : List (String × Json) → String → Option Json
  | [], _ => none
  | (k, v) :: rest, key => if k = key then some v else Json.lookupField rest key

/-- Python exceptions that can escape the functions we model. -/
inductive PyErr where
  | attributeError
  | keyError (key : String)
deriving DecidableEq

/-- `str(exc)` for the exceptions above, as interpolated into
`f"Tool execution failed: {e!s}"`.  `str(KeyError("k"))` is `"'k'"`. -/
def PyErr.toPyStr : PyErr → String
  | .attributeError => "AttributeError"
  | .keyError k => "\x27" ++ k ++ "\x27"

/-! ### Flow models (models/flow.py) -/

/-- `FlowPriority` enum (models/flow.py lines 23-28). -/
inductive FlowPriority where
  | low
  | medium
  | high
deriving DecidableEq

/-- Enum lookup by member name, `FlowPriority[name]` (names are upper-case);
`none` models the `KeyError` branch. -/
def FlowPriority.fromName : String → Option FlowPriority
  | "LOW" => some .low
  | "MEDIUM" => some .medium
  | "HIGH" => some .high
  | _ => none

/-- Enum lookup by value, `FlowPriority(value)`; `none` models `ValueError`. -/
def FlowPriority.fromValue : String → Option FlowPriority
  | "low" => some .low
  | "medium" => some .medium
  | "high" => some .high
  | _ => none

/-- The `value` attribute of a `FlowPriority` member. -/
def FlowPriority.value : FlowPriority → String
  | .low => "low"
  | .medium => "medium"
  | .high => "high"

/-- `FlowCreate` (models/flow.py): pydantic-validated creation payload.
`title` is a string of 1-200 characters; auto-extracted flows always carry
`due_date = none` and `reminder_enabled = false`. -/
structure FlowCreate where
  context_id : String
  title : String
  description : Option String
  priority : FlowPriority
  due_date : Option Nat
  reminder_enabled : Bool
deriving DecidableEq

/-- Python `str.upper` on a single character (ASCII). -/
def pyUpperChar (c : Char) : Char :=
  if 97 ≤ c.toNat ∧ c.toNat ≤ 122 then Char.ofNat (c.toNat - 32) else c

/-- Python `str.lower` on a `String`. -/
def pyLowerStr (s : String) : String := String.mk (pyLower s.data)

/-- Python `str.upper` on a `String`. -/
def pyUpperStr (s : String) : String := String.mk (s.data.map pyUpperChar)

/-! ### `AIService._parse_flow_json` (services/ai_service.py lines 290-345)

Each loop iteration runs under
`try: ... except (KeyError, ValueError, ValidationError): skip`.
`AttributeError` is not in that tuple, so `item.get(...)` on a non-dict item,
or `.lower()` on a non-string priority value, escapes the loop (and the whole
function). -/

/-- One iteration of the `for item in tasks` loop.
`.error` = an exception escaping the `except (KeyError, ValueError,
ValidationError)` handler; `.ok none` = item skipped by that handler;
`.ok (some f)` = flow appended. -/
def parseFlowItem (context_id : String) (item : Json) :
    Except PyErr (Option FlowCreate) :=
  match item with
  | Json.obj fields =>
    -- priority_str = item.get("priority", "medium").lower()
    match (Json.lookupField fields "priority").getD (Json.str "medium") with
    | Json.str rawPriority =>
      let priority_str := pyLowerStr rawPriority
      -- FlowPriority[priority_str.upper()], KeyError caught -> MEDIUM
      let priority := (FlowPriority.fromName (pyUpperStr priority_str)).getD
        FlowPriority.medium
      -- title=item["title"]: KeyError on a missing key is caught -> skip item
      match Json.lookupField fields "title" with
      | none => Except.ok none
      | some titleVal =>
        match titleVal with
        | Json.str t =>
          if 1 ≤ t.length ∧ t.length ≤ 200 then
            -- description=item.get("description"): must be a string or None,
            -- anything else is a pydantic ValidationError -> skip item
            match (Json.lookupField fields "description").getD Json.null with
            | Json.null =>
              Except.ok (some ⟨context_id, t, none, priority, none, false⟩)
            | Json.str d =>
              Except.ok (some ⟨context_id, t, some d, priority, none, false⟩)
            | _ => Except.ok none
          else
            -- pydantic length bounds on title -> ValidationError -> skip item
            Except.ok none
        | _ =>
          -- non-string title -> pydantic ValidationError -> skip item
          Except.ok none
    | _ =>
      -- `.lower()` on a non-string: AttributeError, NOT caught by the handler
      Except.error PyErr.attributeError
  | _ =>
    -- `item.get` on a non-dict: AttributeError, NOT caught by the handler
    Except.error PyErr.attributeError

/-- The `for item in tasks` loop of `_parse_flow_json`: valid items are
collected in order, skipped items are dropped, and an uncaught exception
aborts the whole loop. -/
def processItems (context_id : String) : List Json → Except PyErr (List FlowCreate)
  | [] => Except.ok []
  | item :: rest =>
    match parseFlowItem context_id item with
    | Except.error e => Except.error e
    | Except.ok none => processItems context_id rest
    | Except.ok (some f) =>
      match processItems context_id rest with
      | Except.error e => Except.error e
      | Except.ok fs => Except.ok (f :: fs)

/-- `AIService._parse_flow_json` (services/ai_service.py lines 290-345),
with the `json.loads` outcome supplied as `loaded`
(`.error` = `json.JSONDecodeError`, caught: returns `[]`). -/
def parse_flow_json (loaded : Except Unit Json) (context_id : String) :
    Except PyErr (List FlowCreate) :=
  match loaded with
  | Except.error _ => Except.ok []
  | Except.ok data =>
    match data with
    | Json.obj fields =>
      -- tasks = data.get("tasks", [])
      match (Json.lookupField fields "tasks").getD (Json.arr []) with
      | Json.arr items => processItems context_id items
      | _ => Except.ok []
    | _ => Except.ok []

/-! ### MongoDB documents and repositories -/

/-- A character in `[0-9a-fA-F]`. -/
def isHexDigit (c : Char) : Bool :=
  (48 ≤ c.toNat && c.toNat ≤ 57) || (97 ≤ c.toNat && c.toNat ≤ 102) ||
    (65 ≤ c.toNat && c.toNat ≤ 70)

/-- `bson.ObjectId(s)` succeeds exactly on 24-character hex strings;
`_to_object_id` (repositories/base.py lines 40-53) catches `InvalidId` and
`TypeError` and returns `None` otherwise. -/
def isValidObjectId (s : String) : Bool :=
  s.length = 24 && s.data.all isHexDigit

/-- A document of the `flows` collection (`FlowInDB`, models/flow.py). -/
structure Flow where
  id : String
  context_id : String
  user_id : String
  title : String
  description : Option String
  priority : FlowPriority
  is_completed : Bool
  due_date : Option Nat
  reminder_enabled : Bool
  created_at : Nat
  updated_at : Nat
  completed_at : Option Nat
deriving DecidableEq

/-- A document of the `contexts` collection, reduced to the fields the
modelled code reads (`ContextRepository.get_by_id` ownership check and the
friendly `name`). -/
structure Context where
  id : String
  user_id : String
  name : String
deriving DecidableEq

/-- `ContextRepository.get_by_id` (repositories/context_repository.py lines
46-62): ObjectId validation, then `find_one({"_id": obj_id, "user_id":
user_id})`. -/
def ContextRepo.get_by_id (contexts : List Context) (context_id user_id : String) :
    Option Context :=
  if isValidObjectId context_id then
    contexts.find? (fun c => c.id == context_id && c.user_id == user_id)
  else none

/-- `FlowRepository.get_by_id` (repositories/flow_repository.py lines 65-83):
ObjectId validation, then `find_one({"_id": obj_id, "user_id": user_id})`. -/
def FlowRepo.get_by_id (flows : List Flow) (flow_id user_id : String) :
    Option Flow :=
  if isValidObjectId flow_id then
    flows.find? (fun f => f.id == flow_id && f.user_id == user_id)
  else none

/-- `find_one_and_update` with `return_document=True`: update the first
matching document in place and return the updated document. -/
def findOneAndUpdate {α : Type} (docs : List α) (p : α → Bool) (upd : α → α) :
    Option α × List α :=
  match docs with
  | [] => (none, [])
  | f :: rest =>
    if p f then (some (upd f), upd f :: rest)
    else
      match findOneAndUpdate rest p upd with
      | (r, rest2) => (r, f :: rest2)

/-- `FlowRepository.mark_complete` (repositories/flow_repository.py lines
221-257): returns `none` if the flow is missing, unauthorized or already
completed (documented idempotent behaviour); otherwise sets
`is_completed`, `completed_at` and `updated_at`. -/
def FlowRepo.mark_complete (flows : List Flow) (flow_id user_id : String)
    (now : Nat) : Option Flow × List Flow :=
  match FlowRepo.get_by_id flows flow_id user_id with
  | none => (none, flows)
  | some flow =>
    if flow.is_completed then (none, flows)
    else
      if isValidObjectId flow_id then
        findOneAndUpdate flows (fun f => f.id == flow_id && f.user_id == user_id)
          (fun f => { f with is_completed := true, completed_at := some now,
                             updated_at := now })
      else (none, flows)

/-- The non-`None` field set of a `FlowUpdate` payload, as produced by the two
update tools (either just `priority` or just `title`); `FlowRepository.update`
applies exactly these fields plus `updated_at`. -/
inductive FlowUpdateFields where
  | setPriority (p : FlowPriority)
  | setTitle (t : String)
deriving DecidableEq

/-- `FlowRepository.update` (repositories/flow_repository.py lines 160-197)
restricted to the two non-empty payloads the tools build: ObjectId validation,
then `find_one_and_update` with `$set` of the non-`None` fields and
`updated_at`. -/
def FlowRepo.update (flows : List Flow) (flow_id user_id : String)
    (updates : FlowUpdateFields) (now : Nat) : Option Flow × List Flow :=
  if isValidObjectId flow_id then
    findOneAndUpdate flows (fun f => f.id == flow_id && f.user_id == user_id)
      (fun f =>
        match updates with
        | .setPriority p => { f with priority := p, updated_at := now }
        | .setTitle t => { f with title := t, updated_at := now })
  else (none, flows)

/-- `FlowRepository.delete` (repositories/flow_repository.py lines 199-219):
ObjectId validation, then `delete_one({"_id": obj_id, "user_id": user_id})`;
returns whether a document was deleted. -/
def FlowRepo.delete (flows : List Flow) (flow_id user_id : String) :
    Bool × List Flow :=
  if isValidObjectId flow_id then
    match flows.find? (fun f => f.id == flow_id && f.user_id == user_id) with
    | none => (false, flows)
    | some f => (true, flows.erase f)
  else (false, flows)

/-- `FlowRepository.create` (repositories/flow_repository.py lines 36-63):
verify the context exists and is owned by the user (else `None`), then insert
the flow with `is_completed = False` and fresh timestamps.  MongoDB's freshly
generated `_id` is modelled as a function of the collection size. -/
def FlowRepo.create (flows : List Flow) (contexts : List Context)
    (user_id context_id : String) (flow_data : FlowCreate) (now : Nat) :
    Option Flow × List Flow :=
  match ContextRepo.get_by_id contexts context_id user_id with
  | none => (none, flows)
  | some _ =>
    let newFlow : Flow :=
      { id := "oid-" ++ toString flows.length
        context_id := context_id
        user_id := user_id
        title := flow_data.title
        description := flow_data.description
        priority := flow_data.priority
        is_completed := false
        due_date := flow_data.due_date
        reminder_enabled := flow_data.reminder_enabled
        created_at := now
        updated_at := now
        completed_at := none }
    (some newFlow, flows ++ [newFlow])

/-! ### `CacheService` (services/cache_service.py)

In-memory key/value store with per-entry absolute expiry.  `get` hits only
while `now < expires_at` (the expired-entry eviction performed inside `get`
is not observable through `get`/`set`/`delete`, so the model keeps the
entry). -/

/-- One cache binding: value and absolute expiry instant. -/
structure CacheEntry (α : Type) where
  value : α
  expires_at : Nat
deriving DecidableEq

/-- The cache storage (unique keys, modelled as first-match association
list). -/
def Cache (α : Type) : Type := List (String × CacheEntry α)

/-- `CacheService.get`: value if present and not expired
(`datetime.now(UTC) < expires_at`), else `None`. -/
def Cache.get {α : Type} (c : Cache α) (key : String) (now : Nat) : Option α :=
  match List.lookup key c with
  | some e => if now < e.expires_at then some e.value else none
  | none => none

/-- `CacheService.set`: store with expiry `now + ttl_seconds`, replacing any
previous binding of the key. -/
def Cache.set {α : Type} (c : Cache α) (key : String) (v : α) (ttl now : Nat) :
    Cache α :=
  (key, ⟨v, now + ttl⟩) :: c.filter (fun kv => kv.1 ≠ key)

/-- `CacheService.delete`: drop the key. -/
def Cache.delete {α : Type} (c : Cache α) (key : String) : Cache α :=
  c.filter (fun kv => kv.1 ≠ key)

/-- Value cached by `summary_cache` (a `ContextSummary`; its payload is
irrelevant to the modelled code, which only ever deletes summary keys). -/
structure SummaryVal where
  text : String
deriving DecidableEq

/-- Modelled from the spec: a `DismissalMarker` stored in
`dismissed_flow_cache` under `dismissed:{context_id}:{normalized_title}`.
The code that writes these markers (the user-dismissal flow) is outside the
repository slice; per the spec it stores a marker when a user rejects a
suggested task, and the router only tests the marker's presence (a stored
marker object is truthy in Python). -/
inductive DismissMarker where
  | marker
deriving DecidableEq

/-! ### AI tools (services/ai_tools.py) -/

/-- Python truthiness of a JSON-decoded value. -/
def Json.truthy : Json → Bool
  | .null => false
  | .bool b => b
  | .num n => decide (n ≠ 0)
  | .str s => !s.isEmpty
  | .arr items => !items.isEmpty
  | .obj fields => !fields.isEmpty

/-- Python `f"{v}"` (i.e. `str(v)`) of a JSON-decoded value.  Container
renderings are abbreviated; no modelled claim reaches them. -/
def Json.pyStr : Json → String
  | .null => "None"
  | .bool true => "True"
  | .bool false => "False"
  | .num n => toString n
  | .str s => s
  | .arr _ => "<list>"
  | .obj _ => "<dict>"

/-- Python `repr(v)` of a JSON-decoded value, as embedded in `ValueError`
messages.  Container renderings are abbreviated; no modelled claim reaches
them. -/
def Json.pyRepr : Json → String
  | .null => "None"
  | .bool true => "True"
  | .bool false => "False"
  | .num n => toString n
  | .str s => "\x27" ++ s ++ "\x27"
  | .arr _ => "<list>"
  | .obj _ => "<dict>"

/-- `FlowRepository.get_by_id` applied to a raw argument value:
`ObjectId(x)` on a non-string raises `TypeError`, which `_to_object_id`
catches, so the lookup misses. -/
def FlowRepo.get_by_id_val (flows : List Flow) (idVal : Json) (user_id : String) :
    Option Flow :=
  match idVal with
  | Json.str s => FlowRepo.get_by_id flows s user_id
  | _ => none

/-- `FlowRepository.mark_complete` applied to a raw argument value (same
`_to_object_id` behaviour as above). -/
def FlowRepo.mark_complete_val (flows : List Flow) (idVal : Json)
    (user_id : String) (now : Nat) : Option Flow × List Flow :=
  match idVal with
  | Json.str s => FlowRepo.mark_complete flows s user_id now
  | _ => (none, flows)

/-- `FlowRepository.update` applied to a raw argument value. -/
def FlowRepo.update_val (flows : List Flow) (idVal : Json) (user_id : String)
    (updates : FlowUpdateFields) (now : Nat) : Option Flow × List Flow :=
  match idVal with
  | Json.str s => FlowRepo.update flows s user_id updates now
  | _ => (none, flows)

/-- `FlowRepository.delete` applied to a raw argument value. -/
def FlowRepo.delete_val (flows : List Flow) (idVal : Json) (user_id : String) :
    Bool × List Flow :=
  match idVal with
  | Json.str s => FlowRepo.delete flows s user_id
  | _ => (false, flows)

/-- The result dictionary returned by tool execution: `success` plus the
optional keys the executors set.  Echoed argument values keep their raw JSON
form. -/
structure ToolResult where
  success : Bool
  message : Option String := none
  error : Option String := none
  flow_id : Option Json := none
  flow_title : Option String := none
  new_priority : Option Json := none
  old_title : Option String := none
  new_title : Option Json := none

/-- Tool arguments: the dictionary produced by `json.loads` of the model's
argument payload (or the `{}` fallback). -/
def ToolArgs : Type := List (String × Json)

/-- State touched by tool executors: the `flows` collection and the
process-wide `summary_cache`. -/
structure ToolState where
  flows : List Flow
  summaryCache : Cache SummaryVal

/-- `AITools._execute_mark_complete` (services/ai_tools.py lines 176-226). -/
def AITools.execute_mark_complete (arguments : ToolArgs) (user_id : String)
    (st : ToolState) (now : Nat) : Except PyErr (ToolResult × ToolState) :=
  -- flow_id = arguments.get("flow_id"); if not flow_id: error result
  let flow_idOpt := Json.lookupField arguments "flow_id"
  match flow_idOpt with
  | none =>
    Except.ok ({ success := false, error := some "Missing flow_id parameter" }, st)
  | some flow_id =>
    if !flow_id.truthy then
      Except.ok ({ success := false, error := some "Missing flow_id parameter" }, st)
    else
      match FlowRepo.get_by_id_val st.flows flow_id user_id with
      | none =>
        Except.ok ({ success := true,
                     message := some "That task is already cleared",
                     flow_id := some flow_id }, st)
      | some flow =>
        match FlowRepo.mark_complete_val st.flows flow_id user_id now with
        | (none, flows2) =>
          Except.ok ({ success := false,
                       error := some "Failed to mark flow as complete" },
                     { st with flows := flows2 })
        | (some _, flows2) =>
          let cache2 := Cache.delete st.summaryCache ("summary:" ++ flow.context_id)
          Except.ok ({ success := true,
                       message := some ("Marked \x27" ++ flow.title ++
                         "\x27 as complete"),
                       flow_id := some flow_id,
                       flow_title := some flow.title },
                     { flows := flows2, summaryCache := cache2 })

/-- `AITools._execute_delete` (services/ai_tools.py lines 228-261). -/
def AITools.execute_delete (arguments : ToolArgs) (user_id : String)
    (st : ToolState) (_now : Nat) : Except PyErr (ToolResult × ToolState) :=
  -- flow_id = arguments["flow_id"]: KeyError if absent
  match Json.lookupField arguments "flow_id" with
  | none => Except.error (PyErr.keyError "flow_id")
  | some flow_id =>
    match FlowRepo.get_by_id_val st.flows flow_id user_id with
    | none =>
      Except.ok ({ success := true,
                   message := some "That task was already removed",
                   flow_id := some flow_id }, st)
    | some flow =>
      match FlowRepo.delete_val st.flows flow_id user_id with
      | (false, flows2) =>
        Except.ok ({ success := false, error := some "Failed to delete flow" },
                   { st with flows := flows2 })
      | (true, flows2) =>
        let cache2 := Cache.delete st.summaryCache ("summary:" ++ flow.context_id)
        Except.ok ({ success := true,
                     message := some ("Deleted \x27" ++ flow.title ++ "\x27"),
                     flow_id := some flow_id,
                     flow_title := some flow.title },
                   { flows := flows2, summaryCache := cache2 })

/-- `AITools._execute_update_priority` (services/ai_tools.py lines 263-313).
A pydantic `ValidationError` is a `ValueError`, so the `except ValueError`
branch covers both the enum conversion and the payload validation. -/
def AITools.execute_update_priority (arguments : ToolArgs) (user_id : String)
    (st : ToolState) (now : Nat) : Except PyErr (ToolResult × ToolState) :=
  match Json.lookupField arguments "flow_id" with
  | none => Except.error (PyErr.keyError "flow_id")
  | some flow_id =>
    match Json.lookupField arguments "priority" with
    | none => Except.error (PyErr.keyError "priority")
    | some priority_str =>
      match FlowRepo.get_by_id_val st.flows flow_id user_id with
      | none =>
        Except.ok ({ success := true,
                     message := some "That task is already gone",
                     flow_id := some flow_id }, st)
      | some flow =>
        -- priority = FlowPriority(priority_str): ValueError -> error result
        match
          (match priority_str with
           | Json.str v => FlowPriority.fromValue v
           | _ => none) with
        | none =>
          Except.ok ({ success := false,
                       error := some ("Invalid priority: " ++ priority_str.pyRepr ++
                         " is not a valid FlowPriority") }, st)
        | some priority =>
          match FlowRepo.update_val st.flows flow_id user_id
              (FlowUpdateFields.setPriority priority) now with
          | (none, flows2) =>
            Except.ok ({ success := false,
                         error := some "Failed to update flow priority" },
                       { st with flows := flows2 })
          | (some _, flows2) =>
            let cache2 := Cache.delete st.summaryCache
              ("summary:" ++ flow.context_id)
            Except.ok ({ success := true,
                         message := some ("Updated \x27" ++ flow.title ++
                           "\x27 priority to " ++ priority_str.pyStr),
                         flow_id := some flow_id,
                         flow_title := some flow.title,
                         new_priority := some priority_str },
                       { flows := flows2, summaryCache := cache2 })

/-- `AITools._execute_update_title` (services/ai_tools.py lines 315-366).
`FlowUpdate(title=new_title, ...)` validates the title (string, 1-200
characters); a `ValidationError` is a `ValueError` and lands in the
`except ValueError` branch (message abbreviated). -/
def AITools.execute_update_title (arguments : ToolArgs) (user_id : String)
    (st : ToolState) (now : Nat) : Except PyErr (ToolResult × ToolState) :=
  match Json.lookupField arguments "flow_id" with
  | none => Except.error (PyErr.keyError "flow_id")
  | some flow_id =>
    match Json.lookupField arguments "new_title" with
    | none => Except.error (PyErr.keyError "new_title")
    | some new_title =>
      match FlowRepo.get_by_id_val st.flows flow_id user_id with
      | none =>
        Except.ok ({ success := true,
                     message := some "That task is already gone",
                     flow_id := some flow_id }, st)
      | some flow =>
        match
          (match new_title with
           | Json.str t => if 1 ≤ t.length ∧ t.length ≤ 200 then some t else none
           | _ => none) with
        | none =>
          Except.ok ({ success := false,
                       error := some "Invalid title: validation error for FlowUpdate" },
                     st)
        | some t =>
          match FlowRepo.update_val st.flows flow_id user_id
              (FlowUpdateFields.setTitle t) now with
          | (none, flows2) =>
            Except.ok ({ success := false,
                         error := some "Failed to update flow title" },
                       { st with flows := flows2 })
          | (some _, flows2) =>
            let cache2 := Cache.delete st.summaryCache
              ("summary:" ++ flow.context_id)
            Except.ok ({ success := true,
                         message := some ("Renamed \x27" ++ flow.title ++
                           "\x27 to \x27" ++ new_title.pyStr ++ "\x27"),
                         flow_id := some flow_id,
                         old_title := some flow.title,
                         new_title := some new_title },
                       { flows := flows2, summaryCache := cache2 })

/-- The neutral message each executor returns when the target flow does not
resolve (services/ai_tools.py lines 202-206, 240-244, 276-280, 328-332). -/
def neutralMessage : String → String
  | "mark_flow_complete" => "That task is already cleared"
  | "delete_flow" => "That task was already removed"
  | _ => "That task is already gone"

/-- The registry keys of `AITools._register_tools`
(services/ai_tools.py lines 26-135). -/
def registeredToolNames : List String :=
  ["mark_flow_complete", "delete_flow", "update_flow_priority",
   "update_flow_title"]

/-- Dispatch to the executor registered under `tool_name` (the
`self._executors[tool_name]` call); only invoked for registered names. -/
def AITools.dispatch (tool_name : String) (arguments : ToolArgs)
    (user_id : String) (st : ToolState) (now : Nat) :
    Except PyErr (ToolResult × ToolState) :=
  if tool_name = "mark_flow_complete" then
    AITools.execute_mark_complete arguments user_id st now
  else if tool_name = "delete_flow" then
    AITools.execute_delete arguments user_id st now
  else if tool_name = "update_flow_priority" then
    AITools.execute_update_priority arguments user_id st now
  else
    AITools.execute_update_title arguments user_id st now

/-- `AITools.execute_tool` (services/ai_tools.py lines 141-174): unknown
names fail without raising, and any exception escaping the executor is
converted to `{"success": False, "error": f"Tool execution failed: {e!s}"}`
at the dispatch boundary.  In every executor each possible exception is
raised before any state mutation, so the incoming state is returned
unchanged on that path. -/
def AITools.execute_tool (tool_name : String) (arguments : ToolArgs)
    (user_id : String) (st : ToolState) (now : Nat) : ToolResult × ToolState :=
  if tool_name ∉ registeredToolNames then
    ({ success := false, error := some ("Unknown tool: " ++ tool_name) }, st)
  else
    match AITools.dispatch tool_name arguments user_id st now with
    | Except.ok r => r
    | Except.error e =>
      ({ success := false,
         error := some ("Tool execution failed: " ++ e.toPyStr) }, st)

/-! ### Conversations (models/conversation.py,
repositories/conversation_repository.py) -/

/-- `MessageRole` enum. -/
inductive MessageRole where
  | user
  | assistant
  | system
deriving DecidableEq

/-- A `Message` (role, 1-10000 character content, optional timestamp). -/
structure Message where
  role : MessageRole
  content : String
  timestamp : Option Nat
deriving DecidableEq

/-- A document of the `conversations` collection. -/
structure Conversation where
  id : String
  context_id : String
  user_id : String
  messages : List Message
  created_at : Nat
  updated_at : Nat
deriving DecidableEq

/-- `ConversationRepository.append_message` (conversation_repository.py lines
133-180): assign a server timestamp when absent, validate the ObjectId
(`ValueError` otherwise), then atomically `$push` the message and `$set`
`updated_at` on the document matching both id and owner (`ValueError` when no
document matches).  `.error` models the raised `ValueError`. -/
def ConversationRepo.append_message (convs : List Conversation)
    (conversation_id : String) (message : Message) (user_id : String)
    (now : Nat) : Except Unit (Conversation × List Conversation) :=
  let message2 := { message with timestamp := some (message.timestamp.getD now) }
  if !isValidObjectId conversation_id then Except.error ()
  else
    match findOneAndUpdate convs
        (fun c => c.id == conversation_id && c.user_id == user_id)
        (fun c => { c with messages := c.messages ++ [message2],
                           updated_at := now }) with
    | (none, _) => Except.error ()
    | (some c2, convs2) => Except.ok (c2, convs2)

/-- The `latest_user_message` computation of `stream_chat`
(routers/conversations.py lines 201-211): the payload's last message if its
role is `user`, otherwise the most recent user-role message in the payload,
`none` when the payload holds no user message. -/
def latestUserMessage (msgs : List Message) : Option Message :=
  match msgs.getLast? with
  | none => none
  | some last =>
    if last.role = MessageRole.user then some last
    else msgs.reverse.find? (fun m => m.role == MessageRole.user)

/-- The `duplicate_context_switch` test of `stream_chat`
(routers/conversations.py lines 215-221): the request is flagged as a context
switch and the conversation's last stored message is a user message with
identical content. -/
def duplicateContextSwitch (is_context_switch : Bool) (conv : Conversation)
    (latest : Message) : Bool :=
  is_context_switch &&
    (match conv.messages.getLast? with
     | none => false
     | some lastExisting =>
       lastExisting.role == MessageRole.user &&
         lastExisting.content == latest.content)

/-- The user-message append step of `stream_chat` (routers/conversations.py
lines 200-241) on the resolved conversation `conv`: returns the
`user_message_added` flag and the updated `conversations` collection.  The
repository's `ValueError` is caught (append fails silently). -/
def streamChatAppendStep (is_context_switch : Bool)
    (request_messages : List Message) (conv : Conversation)
    (convs : List Conversation) (user_id : String) (now : Nat) :
    Bool × List Conversation :=
  match latestUserMessage request_messages with
  | none => (false, convs)
  | some latest =>
    if duplicateContextSwitch is_context_switch conv latest then (false, convs)
    else
      match ConversationRepo.append_message convs conv.id latest user_id now with
      | Except.ok (_, convs2) => (true, convs2)
      | Except.error _ => (false, convs)

/-! ### The chat-stream SSE generator (routers/conversations.py lines
269-489)

The generator's first action is the call
`ai_service.stream_chat_response(chat_request.messages,
chat_request.context_id, tools=..., available_flows=...,
is_context_switch=..., context_name=...)` (lines 279-286).  Binding those
keywords against the signature of `AIService.stream_chat_response`
(ai_service.py lines 230-236) is part of the call itself: a keyword with no
matching parameter raises `TypeError` inside the generator's `try`, before
any chunk is produced. -/

/-- The parameter names of `AIService.stream_chat_response`
(ai_service.py lines 230-236), excluding `self`. -/
def stream_chat_response_params : List String :=
  ["messages", "context_id", "tools", "available_flows"]

/-- The keyword-argument names used by the call in `generate_sse_stream`
(routers/conversations.py lines 279-286); `messages` and `context_id` are
passed positionally. -/
def stream_chat_call_keywords : List String :=
  ["tools", "available_flows", "is_context_switch", "context_name"]

/-- Whether every keyword of the call binds to a parameter of the callee
(CPython raises `TypeError: ... got an unexpected keyword argument`
otherwise). -/
def streamChatCallBindsOk : Bool :=
  stream_chat_call_keywords.all
    (fun kw => stream_chat_response_params.contains kw)

/-- One SSE frame (`data: {json.dumps(event)}`), by event `type`. -/
inductive SSEFrame where
  | assistant_token (token messageId : String) (isComplete : Bool)
  | tool_executed (tool_name tool_id : String) (result : ToolResult)
  | conversation_updated (conversation_id : String)
  | flows_extracted (flows : List Flow)
  | error (message code : String)
  | done

/-- A chunk yielded by `stream_chat_response`: a text token or a completed
tool call carrying its raw argument JSON. -/
inductive AIChunk where
  | text (content : String)
  | tool_call (id name arguments : String)

/-- Exception classes observable by the generator's handlers:
`AIServiceError` (and its subclasses) versus anything else. -/
inductive StreamExc where
  | aiServiceError
  | otherExc
deriving DecidableEq

/-- Everything `generate_sse_stream` closes over or receives from its
collaborators: the request data resolved by `stream_chat`, the provider's
behaviour for this turn (its chunks and optional terminal failure), the
`json.loads` oracle for tool-argument payloads, the extraction outcome
(`.error` = a raised `AIServiceError`, caught as non-fatal), and the shared
state (collections and caches). -/
structure SseEnv where
  context_id : String
  user_id : String
  conversation_id : String
  message_id : String
  request_messages : List Message
  user_message_added : Bool
  visibleFlows : List Flow
  chunks : List AIChunk
  provider_failure : Option StreamExc
  parseArgs : String → Except Unit ToolArgs
  extraction : Except Unit (List FlowCreate)
  toolState : ToolState
  conversations : List Conversation
  contexts : List Context
  dismissedCache : Cache DismissMarker
  now : Nat

/-- Step 3 of `generate_sse_stream` (routers/conversations.py lines 419-450):
for each extracted candidate, skip it when a dismissal marker
`dismissed:{context_id}:{normalized_title}` is live or when the normalized
title is already in `existing_title_keys`; otherwise create the flow and, on
success, record it and add its normalized title to the key set.  Returns the
created flows (in order), the final key set and the final collection. -/
def createExtractedFlows (context_id user_id : String)
    (extracted : List FlowCreate) (keys : List String)
    (dismissed : Cache DismissMarker) (contexts : List Context)
    (flows : List Flow) (now : Nat) :
    List Flow × List String × List Flow :=
  match extracted with
  | [] => ([], keys, flows)
  | flow :: rest =>
    let normalized_title := normalizeTitle flow.title
    let dismissed_key := "dismissed:" ++ context_id ++ ":" ++ normalized_title
    match Cache.get dismissed dismissed_key now with
    | some _ =>
      createExtractedFlows context_id user_id rest keys dismissed contexts
        flows now
    | none =>
      if normalized_title ∈ keys then
        createExtractedFlows context_id user_id rest keys dismissed contexts
          flows now
      else
        match FlowRepo.create flows contexts user_id context_id flow now with
        | (none, flows2) =>
          createExtractedFlows context_id user_id rest keys dismissed contexts
            flows2 now
        | (some created, flows2) =>
          match createExtractedFlows context_id user_id rest
              (normalized_title :: keys) dismissed contexts flows2 now with
          | (createdRest, keys3, flows3) =>
            (created :: createdRest, keys3, flows3)

/-- `existing_title_keys` (routers/conversations.py lines 252-262): the
normalized titles of the flows fetched for the context before streaming
(`get_all_by_context(..., include_completed=False)`). -/
def existingTitleKeys (visibleFlows : List Flow) : List String :=
  visibleFlows.map (fun f => normalizeTitle f.title)

/-- The state accumulated by Step 1 of the generator. -/
structure StreamLoopState where
  full_response : String
  tools_executed : Bool
  toolState : ToolState
  frames : List SSEFrame

/-- One iteration of `async for chunk in ai_service.stream_chat_response(...)`
(routers/conversations.py lines 279-351): text chunks are forwarded as
`assistant_token` frames; tool-call chunks parse their arguments
(`{}` fallback on `json.JSONDecodeError`), execute the tool, emit a
`tool_executed` frame and surface the result message as a further
`assistant_token` frame. -/
def processAIChunk (env : SseEnv) (s : StreamLoopState) : AIChunk →
    StreamLoopState
  | AIChunk.text token =>
    { s with full_response := s.full_response ++ token
             frames := s.frames ++
               [SSEFrame.assistant_token token env.message_id false] }
  | AIChunk.tool_call id name rawArgs =>
    let arguments : ToolArgs :=
      match env.parseArgs rawArgs with
      | Except.ok d => d
      | Except.error _ => []
    match AITools.execute_tool name arguments env.user_id s.toolState env.now with
    | (result, st2) =>
      let result_message :=
        if result.success then
          "\n\n✓ " ++ (result.message.getD "Action completed")
        else
          "\n\n✗ " ++ (result.error.getD "Action failed")
      { full_response := s.full_response ++ result_message
        tools_executed := true
        toolState := st2
        frames := s.frames ++
          [SSEFrame.tool_executed name id result,
           SSEFrame.assistant_token result_message env.message_id false] }

/-- Python `full_response.strip()` truthiness: the response holds at least
one non-whitespace character. -/
def pyStripNonEmpty (s : String) : Bool := s.data.any (fun c => !pyIsSpace c)

/-- The outcome of one generator run. -/
structure StreamOutcome where
  frames : List SSEFrame
  toolState : ToolState
  conversations : List Conversation
  created : List Flow

/-- The body of `generate_sse_stream` after a successful call binding
(routers/conversations.py lines 271-471): stream and execute, emit the
completion token, persist the assistant reply (`ValueError` caught), emit
`conversation_updated`, run extraction unless suppressed (tool executed or no
new user message; a raised `AIServiceError` is caught as non-fatal), run the
creation loop, invalidate the summary cache and emit `flows_extracted` when
anything was created, and end with `done`.  A provider failure raised by the
chunk iterator aborts to the matching `except` handler after the frames
already yielded. -/
def streamBody (env : SseEnv) : StreamOutcome :=
  let s := env.chunks.foldl (processAIChunk env)
    { full_response := "", tools_executed := false,
      toolState := env.toolState, frames := [] }
  match env.provider_failure with
  | some StreamExc.aiServiceError =>
    { frames := s.frames ++
        [SSEFrame.error "AI service temporarily unavailable" "ai_service_error"]
      toolState := s.toolState
      conversations := env.conversations
      created := [] }
  | some StreamExc.otherExc =>
    { frames := s.frames ++
        [SSEFrame.error "Internal server error" "internal_error"]
      toolState := s.toolState
      conversations := env.conversations
      created := [] }
  | none =>
    let frames1 := s.frames ++
      [SSEFrame.assistant_token "" env.message_id true]
    let convs2 :=
      if pyStripNonEmpty s.full_response then
        match ConversationRepo.append_message env.conversations
            env.conversation_id
            ⟨MessageRole.assistant, s.full_response, some env.now⟩
            env.user_id env.now with
        | Except.ok (_, cs) => cs
        | Except.error _ => env.conversations
      else env.conversations
    let frames2 := frames1 ++
      [SSEFrame.conversation_updated env.conversation_id]
    let extracted : List FlowCreate :=
      if s.tools_executed then []
      else if !env.user_message_added then []
      else
        match env.extraction with
        | Except.ok fs => fs
        | Except.error _ => []
    match createExtractedFlows env.context_id env.user_id extracted
        (existingTitleKeys env.visibleFlows) env.dismissedCache env.contexts
        s.toolState.flows env.now with
    | (created, _, flows3) =>
      let cache3 :=
        if created ≠ [] then
          Cache.delete s.toolState.summaryCache ("summary:" ++ env.context_id)
        else s.toolState.summaryCache
      let frames3 :=
        if created ≠ [] then frames2 ++ [SSEFrame.flows_extracted created]
        else frames2
      { frames := frames3 ++ [SSEFrame.done]
        toolState := { flows := flows3, summaryCache := cache3 }
        conversations := convs2
        created := created }

/-- `generate_sse_stream` (routers/conversations.py lines 269-489): the very
first step, calling `stream_chat_response` with the keywords of lines
279-286, raises `TypeError` when a keyword fails to bind; the generic
`except Exception` handler (lines 483-489) turns that into a single `error`
frame and the generator ends. -/
def generate_sse_stream (env : SseEnv) : List SSEFrame :=
  if !streamChatCallBindsOk then
    [SSEFrame.error "Internal server error" "internal_error"]
  else (streamBody env).frames

/-! ### `AIService._stream_openai` (services/ai_service.py lines 62-172)

The provider may split one tool call across several stream chunks sharing a
stable `index`; the adapter buffers per-index fragments in
`tool_calls_buffer` and only yields completed tool calls after the chunk
loop. -/

/-- The `function` part of a streamed tool-call delta (`name` and
`arguments` may each be absent). -/
structure ToolCallFunctionDelta where
  name : Option String
  arguments : Option String
deriving DecidableEq

/-- One entry of `delta.tool_calls`. -/
structure ToolCallDelta where
  index : Nat
  id : Option String
  function : Option ToolCallFunctionDelta
deriving DecidableEq

/-- `chunk.choices[0].delta`. -/
structure ChoiceDelta where
  content : Option String
  tool_calls : Option (List ToolCallDelta)
deriving DecidableEq

/-- One chunk of the OpenAI stream; `choices` may be empty
(`if not chunk.choices: continue`). -/
structure ChatChunk where
  choices : List ChoiceDelta
deriving DecidableEq

/-- A `tool_calls_buffer` entry: `{"id": ..., "name": ..., "arguments": ...}`
(`name` is `tool_call.function.name if tool_call.function else ""`, so it can
be Python `None`, modelled as `none`). -/
structure ToolCallAccum where
  id : String
  name : Option String
  arguments : String
deriving DecidableEq

/-- `idx in tool_calls_buffer` (the dict is modelled as an association list
in insertion order, matching Python dict iteration order). -/
def bufferContains (buf : List (Nat × ToolCallAccum)) (idx : Nat) : Bool :=
  buf.any (fun e => e.1 == idx)

/-- `tool_calls_buffer[idx]["arguments"] += fragment`. -/
def bufferAppendArgs (buf : List (Nat × ToolCallAccum)) (idx : Nat)
    (a : String) : List (Nat × ToolCallAccum) :=
  buf.map (fun e =>
    if e.1 == idx then (e.1, { e.2 with arguments := e.2.arguments ++ a })
    else e)

/-- The body of `for tool_call in delta.tool_calls` (ai_service.py lines
137-148): create the buffer entry on first sight of the index, then append
the argument fragment when `tool_call.function and
tool_call.function.arguments` is truthy. -/
def stepToolCall (buf : List (Nat × ToolCallAccum)) (tc : ToolCallDelta) :
    List (Nat × ToolCallAccum) :=
  let buf1 :=
    if !bufferContains buf tc.index then
      buf ++ [(tc.index,
        { id := tc.id.getD ""
          name := match tc.function with
                  | some f => f.name
                  | none => some ""
          arguments := "" })]
    else buf
  match tc.function with
  | some f =>
    match f.arguments with
    | some a => if a ≠ "" then bufferAppendArgs buf1 tc.index a else buf1
    | none => buf1
  | none => buf1

/-- An event yielded by `_stream_openai`: `{"type": "text", ...}` or a
completed `{"type": "tool_call", ...}`. -/
inductive AIEvent where
  | text (content : String)
  | tool_call (id : String) (name : Option String) (arguments : String)
deriving DecidableEq

/-- One iteration of `async for chunk in stream` (ai_service.py lines
125-148): skip chunks without choices, yield non-empty text content, and
fold the tool-call deltas into the buffer. -/
def processStreamChunk (acc : List AIEvent × List (Nat × ToolCallAccum))
    (chunk : ChatChunk) : List AIEvent × List (Nat × ToolCallAccum) :=
  match chunk.choices.head? with
  | none => acc
  | some delta =>
    let events2 :=
      match delta.content with
      | some c => if c ≠ "" then acc.1 ++ [AIEvent.text c] else acc.1
      | none => acc.1
    let buf2 :=
      match delta.tool_calls with
      | some tcs => tcs.foldl stepToolCall acc.2
      | none => acc.2
    (events2, buf2)

/-- `_stream_openai`'s event sequence for a given provider chunk stream
(ai_service.py lines 121-157): the chunk loop, then one completed
`tool_call` event per buffer entry, in buffer (insertion) order. -/
def stream_openai_events (chunks : List ChatChunk) : List AIEvent :=
  match chunks.foldl processStreamChunk ([], []) with
  | (events, buf) =>
    events ++ buf.map (fun e => AIEvent.tool_call e.2.id e.2.name e.2.arguments)

/-! Specification-side descriptions of the same stream, written as direct
scans (no buffer), used to characterize `stream_openai_events`. -/

/-- The deltas of the chunks that carry at least one choice. -/
def deltasOf (chunks : List ChatChunk) : List ChoiceDelta :=
  chunks.filterMap (fun ch => ch.choices.head?)

/-- The non-empty text contents, in stream order. -/
def textsOf (chunks : List ChatChunk) : List String :=
  (deltasOf chunks).filterMap (fun d =>
    match d.content with
    | some c => if c ≠ "" then some c else none
    | none => none)

/-- All tool-call deltas, in stream order. -/
def toolDeltasOf (chunks : List ChatChunk) : List ToolCallDelta :=
  (deltasOf chunks).foldr (fun d acc => d.tool_calls.getD [] ++ acc) []

/-- The text event content one delta contributes (none when absent or
empty). -/
def textPiece (d : ChoiceDelta) : List String :=
  match d.content with
  | some c => if c ≠ "" then [c] else []
  | none => []

/-- First occurrences of a list of indices, in order of first appearance
(`seen` accumulates the indices already encountered). -/
def dedupFirstAux : List Nat → List Nat → List Nat
  | [], _ => []
  | x :: rest, seen =>
    if x ∈ seen then dedupFirstAux rest seen
    else x :: dedupFirstAux rest (x :: seen)

/-- First occurrences, in order of first appearance. -/
def dedupFirst (l : List Nat) : List Nat := dedupFirstAux l []

/-- The distinct stream indices, in order of first appearance. -/
def tdIndices (tds : List ToolCallDelta) : List Nat :=
  dedupFirst (tds.map (fun tc => tc.index))

/-- The first delta carrying a given index. -/
def tdFirstFor (tds : List ToolCallDelta) (idx : Nat) : Option ToolCallDelta :=
  tds.find? (fun tc => tc.index == idx)

/-- The buffered `id` for an index: from the first delta of that index. -/
def tdIdFor (tds : List ToolCallDelta) (idx : Nat) : String :=
  match tdFirstFor tds idx with
  | some tc => tc.id.getD ""
  | none => ""

/-- The buffered `name` for an index: from the first delta of that index. -/
def tdNameFor (tds : List ToolCallDelta) (idx : Nat) : Option String :=
  match tdFirstFor tds idx with
  | some tc =>
    match tc.function with
    | some f => f.name
    | none => some ""
  | none => none

/-- The argument fragment a delta contributes, if any: present exactly when
`tool_call.function and tool_call.function.arguments` is truthy. -/
def fragOf (tc : ToolCallDelta) : Option String :=
  match tc.function with
  | some f =>
    match f.arguments with
    | some a => if a ≠ "" then some a else none
    | none => none
  | none => none

/-- The truthy argument fragments carried by an index, in arrival order. -/
def tdFragments (tds : List ToolCallDelta) (idx : Nat) : List String :=
  tds.filterMap (fun tc => if tc.index == idx then fragOf tc else none)

/-- Left-fold concatenation of strings (the order fragments are `+=`-ed). -/
def joinAll (l : List String) : String := l.foldl (fun a b => a ++ b) ""

/-- The buffer state predicted for a flat delta list: one entry per distinct
index in first-appearance order, id/name from the index's first delta, and
the concatenation of its fragments. -/
def specBuffer (tds : List ToolCallDelta) : List (Nat × ToolCallAccum) :=
  (tdIndices tds).map (fun idx =>
    (idx, { id := tdIdFor tds idx
            name := tdNameFor tds idx
            arguments := joinAll (tdFragments tds idx) }))

/-- A concrete healthy chat turn: ownership passed, one user message
appended, the provider streams one token and fails in no way, extraction
returns nothing. -/
def healthyTurnEnv : SseEnv :=
  { context_id := "507f1f77bcf86cd799439022"
    user_id := "user-1"
    conversation_id := "507f1f77bcf86cd799439011"
    message_id := "assistant-0001"
    request_messages := [⟨MessageRole.user, "Hello", none⟩]
    user_message_added := true
    visibleFlows := []
    chunks := [AIChunk.text "Hi there"]
    provider_failure := none
    parseArgs := fun _ => Except.ok []
    extraction := Except.ok []
    toolState := ⟨[], []⟩
    conversations := []
    contexts := []
    dismissedCache := []
    now := 0 }

/-- A flow that exists, is owned by `user-1`, and is already completed. -/
def completedReportFlow : Flow :=
  { id := "507f1f77bcf86cd799439033"
    context_id := "507f1f77bcf86cd799439022"
    user_id := "user-1"
    title := "Report"
    description := none
    priority := FlowPriority.medium
    is_completed := true
    due_date := none
    reminder_enabled := false
    created_at := 0
    updated_at := 0
    completed_at := some 0 }

end MyFlow

namespace MyFlow

/-! ## Theorems -/

/-- C2: for every request to the chat-stream endpoint, the emitted SSE stream
is exactly one `error` frame with message "Internal server error" and code
"internal_error" and holds no `done` frame: the call to
`stream_chat_response` passes keywords `is_context_switch` and `context_name`
that the signature does not accept, so `TypeError` is raised before any chunk
and the generic handler emits the error frame. -/
theorem stream_always_internal_error (env : SseEnv) :
    generate_sse_stream env =
      [SSEFrame.error "Internal server error" "internal_error"] ∧
    SSEFrame.done ∉ generate_sse_stream env := by
  have hbind : streamChatCallBindsOk = false := by decide
  refine ⟨?_, ?_⟩
  · simp [generate_sse_stream, hbind]
  · simp [generate_sse_stream, hbind]

/-- C1 (code bug): on a healthy turn (ownership passed, no provider-level
failure) the client still receives an `error` frame with code
`internal_error` and never a `done` frame, because the keyword mismatch of
the `stream_chat_response` call raises `TypeError` on every turn.  The spec's
"clean `done` unless a provider-level failure" is violated at this input. -/
theorem healthy_turn_still_errors :
    healthyTurnEnv.provider_failure = none ∧
    generate_sse_stream healthyTurnEnv =
      [SSEFrame.error "Internal server error" "internal_error"] ∧
    SSEFrame.done ∉ generate_sse_stream healthyTurnEnv := by
  have hbind : streamChatCallBindsOk = false := by decide
  refine ⟨rfl, ?_, ?_⟩
  · simp [generate_sse_stream, hbind]
  · simp [generate_sse_stream, hbind]

/-- C3 (code bug): extraction parsing is not total at item granularity: a
non-object entry in `tasks` raises `AttributeError` at `item.get`, which the
`except (KeyError, ValueError, ValidationError)` handler does not catch, so
the whole batch - including the valid item "Book flight" - is dropped by the
escaping exception instead of only the bad item being skipped. -/
theorem parse_flow_json_nonobject_item_raises :
    parse_flow_json
      (Except.ok (Json.obj [("tasks", Json.arr
        [Json.obj [("title", Json.str "Book flight")], Json.num 42])]))
      "ctx-1"
      = Except.error PyErr.attributeError := by
  rfl

/-- C4 (code bug): executing `mark_flow_complete` on a flow that exists for
the user and is already completed is NOT the claimed success no-op: the flow
resolves via `get_by_id` (so the neutral "already cleared" branch is not
taken), `FlowRepository.mark_complete` returns `None` by its documented
idempotent behaviour, and the tool turns that into
`{"success": False, "error": "Failed to mark flow as complete"}`. -/
theorem mark_complete_twice_returns_error :
    FlowRepo.get_by_id [completedReportFlow] "507f1f77bcf86cd799439033" "user-1"
      = some completedReportFlow ∧
    completedReportFlow.is_completed = true ∧
    (AITools.execute_tool "mark_flow_complete"
        [("flow_id", Json.str "507f1f77bcf86cd799439033")] "user-1"
        ⟨[completedReportFlow], []⟩ 5).1.success = false ∧
    (AITools.execute_tool "mark_flow_complete"
        [("flow_id", Json.str "507f1f77bcf86cd799439033")] "user-1"
        ⟨[completedReportFlow], []⟩ 5).1.error
      = some "Failed to mark flow as complete" ∧
    (AITools.execute_tool "mark_flow_complete"
        [("flow_id", Json.str "507f1f77bcf86cd799439033")] "user-1"
        ⟨[completedReportFlow], []⟩ 5).1.message = none := by
  exact ⟨rfl, rfl, rfl, rfl, rfl⟩

/-- C10: executing any of the four registered tools with the empty arguments
dictionary (the fallback used when the model's argument JSON fails to parse)
yields `success = false` with an error string and leaves the state untouched,
and nothing escapes `execute_tool`: `mark_flow_complete` reports the missing
`flow_id` explicitly, while for the other three tools the `KeyError` raised
at `arguments["flow_id"]` is caught at the dispatch boundary and converted to
`{"success": False, "error": "Tool execution failed: 'flow_id'"}`. -/
theorem execute_tool_empty_args_fails (tool_name : String)
    (h : tool_name ∈ registeredToolNames) (user_id : String) (st : ToolState)
    (now : Nat) :
    (AITools.execute_tool tool_name [] user_id st now).1.success = false ∧
    ((AITools.execute_tool tool_name [] user_id st now).1.error).isSome = true ∧
    (AITools.execute_tool tool_name [] user_id st now).2 = st ∧
    (tool_name = "mark_flow_complete" →
      (AITools.execute_tool tool_name [] user_id st now).1.error =
        some "Missing flow_id parameter") ∧
    (tool_name ≠ "mark_flow_complete" →
      AITools.dispatch tool_name [] user_id st now =
        Except.error (PyErr.keyError "flow_id") ∧
      (AITools.execute_tool tool_name [] user_id st now).1.error =
        some "Tool execution failed: \x27flow_id\x27") := by
  simp only [registeredToolNames, List.mem_cons, List.not_mem_nil,
    or_false] at h
  rcases h with h | h | h | h <;> subst h
  · exact ⟨rfl, rfl, rfl, fun _ => rfl, fun hn => absurd rfl hn⟩
  · exact ⟨rfl, rfl, rfl, fun hn => absurd hn (by decide), fun _ => ⟨rfl, rfl⟩⟩
  · exact ⟨rfl, rfl, rfl, fun hn => absurd hn (by decide), fun _ => ⟨rfl, rfl⟩⟩
  · exact ⟨rfl, rfl, rfl, fun hn => absurd hn (by decide), fun _ => ⟨rfl, rfl⟩⟩

/-- Witness for `execute_tool_empty_args_fails` at the concrete tool
`delete_flow`, an empty collection and time 0. -/
theorem execute_tool_empty_args_fails_witness :
    (AITools.execute_tool "delete_flow" [] "user-1" ⟨[], []⟩ 0).1.success
      = false :=
  (execute_tool_empty_args_fails "delete_flow" (by decide) "user-1" ⟨[], []⟩ 0).1

/-- C7 counterexample: `mark_flow_complete` executed with the flow_id `""` -
a flow_id that resolves to no flow owned by the user - returns
`{"success": False, "error": "Missing flow_id parameter"}`, because the
empty string is falsy in `if not flow_id`.  This refutes the claim that a
non-resolving flow_id always yields `{success: true}`. -/
theorem missing_flow_neutral_counterexample :
    FlowRepo.get_by_id_val ([] : List Flow) (Json.str "") "user-1" = none ∧
    (AITools.execute_tool "mark_flow_complete" [("flow_id", Json.str "")]
      "user-1" ⟨[], []⟩ 0).1.success = false ∧
    (AITools.execute_tool "mark_flow_complete" [("flow_id", Json.str "")]
      "user-1" ⟨[], []⟩ 0).1.error = some "Missing flow_id parameter" := by
  exact ⟨rfl, rfl, rfl⟩

/-- C7 (amended): for each of the four registered tools, executing it with a
non-empty string flow_id that does not resolve to a flow owned by the given
user (the update tools additionally carrying their other required argument)
returns `{success: true}` with the tool's neutral "already gone/cleared"
message, no error, and an unchanged state. -/
theorem missing_flow_neutral_success (tool_name : String)
    (h : tool_name ∈ registeredToolNames) (args : ToolArgs) (fid : String)
    (hfid : fid ≠ "") (user_id : String) (st : ToolState) (now : Nat)
    (hlookup : Json.lookupField args "flow_id" = some (Json.str fid))
    (hmiss : FlowRepo.get_by_id st.flows fid user_id = none)
    (hprio : tool_name = "update_flow_priority" →
      (Json.lookupField args "priority").isSome = true)
    (htitle : tool_name = "update_flow_title" →
      (Json.lookupField args "new_title").isSome = true) :
    (AITools.execute_tool tool_name args user_id st now).1.success = true ∧
    (AITools.execute_tool tool_name args user_id st now).1.error = none ∧
    (AITools.execute_tool tool_name args user_id st now).1.message
      = some (neutralMessage tool_name) ∧
    (AITools.execute_tool tool_name args user_id st now).2 = st := by
  have hempty : fid.isEmpty = false := by
    cases hval : fid.isEmpty
    · rfl
    · exact absurd ((String.isEmpty_iff fid).mp hval) hfid
  have hfalse : (Json.str fid).truthy = true := by
    simp [Json.truthy, hempty]
  simp only [registeredToolNames, List.mem_cons, List.not_mem_nil,
    or_false] at h
  rcases h with h | h | h | h <;> subst h
  · simp [AITools.execute_tool, registeredToolNames, AITools.dispatch,
      AITools.execute_mark_complete, hlookup, hfalse,
      FlowRepo.get_by_id_val, hmiss, neutralMessage]
  · simp [AITools.execute_tool, registeredToolNames, AITools.dispatch,
      AITools.execute_delete, hlookup, FlowRepo.get_by_id_val, hmiss,
      neutralMessage]
  · obtain ⟨p, hp⟩ := Option.isSome_iff_exists.mp (hprio rfl)
    simp [AITools.execute_tool, registeredToolNames, AITools.dispatch,
      AITools.execute_update_priority, hlookup, hp,
      FlowRepo.get_by_id_val, hmiss, neutralMessage]
  · obtain ⟨t, ht⟩ := Option.isSome_iff_exists.mp (htitle rfl)
    simp [AITools.execute_tool, registeredToolNames, AITools.dispatch,
      AITools.execute_update_title, hlookup, ht,
      FlowRepo.get_by_id_val, hmiss, neutralMessage]

/-- Witness for `missing_flow_neutral_success`: `delete_flow` on an empty
collection with a syntactically valid but absent flow id. -/
theorem missing_flow_neutral_success_witness :
    (AITools.execute_tool "delete_flow"
      [("flow_id", Json.str "507f1f77bcf86cd799439099")] "user-1"
      ⟨[], []⟩ 0).1.success = true :=
  (missing_flow_neutral_success "delete_flow" (by decide)
    [("flow_id", Json.str "507f1f77bcf86cd799439099")]
    "507f1f77bcf86cd799439099" (by decide) "user-1" ⟨[], []⟩ 0 rfl rfl
    (fun hc => absurd hc (by decide)) (fun hc => absurd hc (by decide))).1

/-- The updated document returned by `find_one_and_update` is the update of
the first match. -/
theorem findOneAndUpdate_fst {α : Type} (l : List α) (p : α → Bool)
    (u : α → α) : (findOneAndUpdate l p u).1 = (l.find? p).map u := by
  induction l with
  | nil => rfl
  | cons f rest ih =>
    cases hpf : p f
    · simp only [findOneAndUpdate, hpf, Bool.false_eq_true, if_false,
        List.find?]
      cases hr : findOneAndUpdate rest p u with
      | mk r1 r2 =>
        rw [hr] at ih
        simpa using ih
    · simp [findOneAndUpdate, hpf, List.find?]

/-- After `find_one_and_update`, looking the document up again by the same
filter returns the updated document, provided the update preserves the
filter. -/
theorem findOneAndUpdate_find? {α : Type} (l : List α) (p : α → Bool)
    (u : α → α) (x : α) (hx : l.find? p = some x) (hpu : p (u x) = true) :
    (findOneAndUpdate l p u).2.find? p = some (u x) := by
  induction l with
  | nil => simp at hx
  | cons f rest ih =>
    cases hpf : p f
    · simp only [List.find?, hpf] at hx
      have := ih hx
      simp only [findOneAndUpdate, hpf, Bool.false_eq_true, if_false]
      cases hr : findOneAndUpdate rest p u with
      | mk r1 r2 =>
        rw [hr] at this
        simpa [List.find?, hpf] using this
    · simp only [List.find?, hpf] at hx
      obtain rfl : f = x := by injection hx
      simp [findOneAndUpdate, hpf, List.find?, hpu]

/-- C9: on a chat turn whose payload holds a user message, the latest user
message is appended to the resolved conversation - except exactly when the
request is flagged as a context switch and the conversation's last stored
message is a user message with identical content, in which case the append
is skipped and the stored conversations are unchanged.  When appended, the
resolved conversation gains exactly that message (server-stamped) at the
end. -/
theorem append_latest_user_message (is_context_switch : Bool)
    (request_messages : List Message) (conv : Conversation)
    (convs : List Conversation) (user_id : String) (now : Nat)
    (latest : Message)
    (hlatest : latestUserMessage request_messages = some latest)
    (hvalid : isValidObjectId conv.id = true)
    (hfind : convs.find? (fun c => c.id == conv.id && c.user_id == user_id)
      = some conv) :
    (streamChatAppendStep is_context_switch request_messages conv convs
        user_id now).1
      = !(duplicateContextSwitch is_context_switch conv latest) ∧
    (duplicateContextSwitch is_context_switch conv latest = true →
      (streamChatAppendStep is_context_switch request_messages conv convs
        user_id now).2 = convs) ∧
    (duplicateContextSwitch is_context_switch conv latest = false →
      (streamChatAppendStep is_context_switch request_messages conv convs
          user_id now).2.find?
          (fun c => c.id == conv.id && c.user_id == user_id)
        = some { conv with
            messages := conv.messages ++
              [{ latest with timestamp := some (latest.timestamp.getD now) }]
            updated_at := now }) := by
  have hpu :
      (fun c : Conversation => c.id == conv.id && c.user_id == user_id)
        ({ conv with
            messages := conv.messages ++
              [{ latest with timestamp := some (latest.timestamp.getD now) }]
            updated_at := now }) = true := by
    have huser : conv.user_id = user_id := by
      have := List.find?_some hfind
      simp only [Bool.and_eq_true, beq_iff_eq] at this
      exact this.2
    simp [huser]
  by_cases hdup : duplicateContextSwitch is_context_switch conv latest = true
  · refine ⟨?_, fun _ => ?_, fun hc => absurd hdup (by simp [hc])⟩
    · simp [streamChatAppendStep, hlatest, hdup]
    · simp [streamChatAppendStep, hlatest, hdup]
  · simp only [Bool.not_eq_true] at hdup
    have happend :
        ConversationRepo.append_message convs conv.id latest user_id now
          = Except.ok
              (({ conv with
                  messages := conv.messages ++
                    [{ latest with
                        timestamp := some (latest.timestamp.getD now) }]
                  updated_at := now }),
               (findOneAndUpdate convs
                 (fun c => c.id == conv.id && c.user_id == user_id)
                 (fun c => { c with
                     messages := c.messages ++
                       [{ latest with
                           timestamp := some (latest.timestamp.getD now) }]
                     updated_at := now })).2) := by
      have h1 := findOneAndUpdate_fst convs
        (fun c => c.id == conv.id && c.user_id == user_id)
        (fun c => { c with
            messages := c.messages ++
              [{ latest with timestamp := some (latest.timestamp.getD now) }]
            updated_at := now })
      rw [hfind] at h1
      simp only [ConversationRepo.append_message, hvalid, Bool.not_true,
        Bool.false_eq_true, if_false]
      cases hr : findOneAndUpdate convs
          (fun c => c.id == conv.id && c.user_id == user_id)
          (fun c => { c with
              messages := c.messages ++
                [{ latest with
                    timestamp := some (latest.timestamp.getD now) }]
              updated_at := now }) with
      | mk r1 r2 =>
        rw [hr] at h1
        simp only [Option.map_some] at h1
        subst h1
        rfl
    refine ⟨?_, fun hc => absurd hc (by simp [hdup]), fun _ => ?_⟩
    · simp [streamChatAppendStep, hlatest, hdup, happend]
    · have h2 := findOneAndUpdate_find? convs
        (fun c => c.id == conv.id && c.user_id == user_id)
        (fun c => { c with
            messages := c.messages ++
              [{ latest with timestamp := some (latest.timestamp.getD now) }]
            updated_at := now }) conv hfind hpu
      simp [streamChatAppendStep, hlatest, hdup, happend, h2]

/-- Witness for `append_latest_user_message`: a non-context-switch turn with
one user message on a conversation with no stored messages. -/
theorem append_latest_user_message_witness :
    (streamChatAppendStep false [⟨MessageRole.user, "Hello", none⟩]
        ⟨"507f1f77bcf86cd799439011", "ctx", "user-1", [], 0, 0⟩
        [⟨"507f1f77bcf86cd799439011", "ctx", "user-1", [], 0, 0⟩]
        "user-1" 7).1
      = !(duplicateContextSwitch false
          ⟨"507f1f77bcf86cd799439011", "ctx", "user-1", [], 0, 0⟩
          ⟨MessageRole.user, "Hello", none⟩) :=
  (append_latest_user_message false [⟨MessageRole.user, "Hello", none⟩]
    ⟨"507f1f77bcf86cd799439011", "ctx", "user-1", [], 0, 0⟩
    [⟨"507f1f77bcf86cd799439011", "ctx", "user-1", [], 0, 0⟩]
    "user-1" 7 ⟨MessageRole.user, "Hello", none⟩ rfl (by decide) rfl).1

/-- Every character surviving the regex substitution is in `[a-z0-9\s]`. -/
theorem keepChar_of_mem_subRuns (l : List Char) (b : Bool) (c : Char)
    (hc : c ∈ subRuns l b) : keepChar c = true := by
  induction l generalizing b with
  | nil => simp [subRuns] at hc
  | cons d rest ih =>
    simp only [subRuns] at hc
    split at hc
    case isTrue hk =>
      rcases List.mem_cons.mp hc with rfl | hmem
      · exact hk
      · exact ih _ hmem
    case isFalse hk =>
      split at hc
      · exact ih _ hc
      · rcases List.mem_cons.mp hc with rfl | hmem
        · decide
        · exact ih _ hmem

/-- Characters of the tokens produced by `str.split()` satisfy any predicate
holding on the accumulator and on the non-whitespace input characters. -/
theorem splitWsAux_token_chars (Q : Char → Prop) :
    ∀ (l acc : List Char), (∀ c ∈ acc, Q c) →
      (∀ c ∈ l, pyIsSpace c = false → Q c) →
      ∀ t ∈ splitWsAux l acc, ∀ c ∈ t, Q c := by
  intro l
  induction l with
  | nil =>
    intro acc hacc _ t ht c hct
    simp only [splitWsAux] at ht
    split at ht
    · simp at ht
    · rw [List.mem_singleton] at ht
      subst ht
      exact hacc c (List.mem_reverse.mp hct)
  | cons d rest ih =>
    intro acc hacc hl t ht c hct
    simp only [splitWsAux] at ht
    split at ht
    case isTrue hsp =>
      split at ht
      · exact ih [] (by simp)
          (fun e he hns => hl e (List.mem_cons_of_mem _ he) hns) t ht c hct
      · rcases List.mem_cons.mp ht with rfl | hmem
        · exact hacc c (List.mem_reverse.mp hct)
        · exact ih [] (by simp)
            (fun e he hns => hl e (List.mem_cons_of_mem _ he) hns) t hmem c hct
    case isFalse hsp =>
      refine ih (d :: acc) ?_
        (fun e he hns => hl e (List.mem_cons_of_mem _ he) hns) t ht c hct
      intro e he
      rcases List.mem_cons.mp he with rfl | hmem
      · exact hl e (List.mem_cons_self _ _) (by simpa using hsp)
      · exact hacc e hmem

/-- Every character of a normalized title is in `[a-z0-9]`. -/
theorem isLowerAlnum_of_mem_normalizeTitle (x : String) (c : Char)
    (hc : c ∈ (normalizeTitle x).data) : isLowerAlnum c = true := by
  have hc2 : c ∈ (normalizeTokens x.data).flatten := hc
  obtain ⟨t, ht, hct⟩ := List.mem_flatten.mp hc2
  have ht2 := List.mem_filter.mp ht
  refine splitWsAux_token_chars (fun e => isLowerAlnum e = true)
    (subRuns (pyLower x.data) false) [] (by simp) ?_ t ht2.1 c hct
  intro e he hns
  have hk := keepChar_of_mem_subRuns _ _ _ he
  simp only [keepChar, Bool.or_eq_true] at hk
  rcases hk with hk | hk
  · exact hk
  · rw [hk] at hns
    exact absurd hns (by simp)

/-- `str.lower` fixes characters in `[a-z0-9]`. -/
theorem pyLowerChar_fixed (c : Char) (h : isLowerAlnum c = true) :
    pyLowerChar c = c := by
  simp only [isLowerAlnum, Bool.or_eq_true, Bool.and_eq_true,
    decide_eq_true_eq] at h
  unfold pyLowerChar
  rw [if_neg]
  omega

/-- `str.lower` fixes strings over `[a-z0-9]`. -/
theorem pyLower_fixed (l : List Char) (h : ∀ c ∈ l, isLowerAlnum c = true) :
    pyLower l = l := by
  induction l with
  | nil => rfl
  | cons c rest ih =>
    simp only [pyLower, List.map_cons]
    rw [pyLowerChar_fixed c (h c (List.mem_cons_self _ _))]
    have := ih (fun d hd => h d (List.mem_cons_of_mem _ hd))
    simp only [pyLower] at this
    rw [this]

/-- The regex substitution fixes strings over `[a-z0-9\s]`. -/
theorem subRuns_fixed (l : List Char) (h : ∀ c ∈ l, keepChar c = true) :
    ∀ b, subRuns l b = l := by
  induction l with
  | nil => intro b; rfl
  | cons c rest ih =>
    intro b
    simp only [subRuns, h c (List.mem_cons_self _ _), if_true]
    rw [ih (fun d hd => h d (List.mem_cons_of_mem _ hd))]

/-- `str.split()` on a whitespace-free string yields the string as its only
token (or nothing when empty). -/
theorem splitWsAux_nospace (l : List Char)
    (h : ∀ c ∈ l, pyIsSpace c = false) :
    ∀ acc, splitWsAux l acc =
      if acc.reverse ++ l = [] then [] else [acc.reverse ++ l] := by
  induction l with
  | nil =>
    intro acc
    cases acc <;> simp [splitWsAux]
  | cons d rest ih =>
    intro acc
    have hd : pyIsSpace d = false := h d (List.mem_cons_self _ _)
    simp only [splitWsAux, hd, Bool.false_eq_true, if_false]
    rw [ih (fun c hc => h c (List.mem_cons_of_mem _ hc)) (d :: acc)]
    simp [List.append_assoc]

/-- Membership bridge between `STOPWORDS` and its character-list form. -/
theorem data_mem_stopwordChars_iff (s : String) :
    s.data ∈ stopwordChars ↔ s ∈ STOPWORDS := by
  simp only [stopwordChars, List.mem_map]
  constructor
  · rintro ⟨w, hw, hdata⟩
    have hws : w = s := by
      cases s with
      | mk sd =>
        cases w with
        | mk wd =>
          have hds : wd = sd := by simpa using hdata
          rw [hds]
    rwa [← hws]
  · intro hs
    exact ⟨s, hs, rfl⟩

/-- Characters in `[a-z0-9]` are not whitespace. -/
theorem not_space_of_isLowerAlnum (c : Char) (h : isLowerAlnum c = true) :
    pyIsSpace c = false := by
  simp only [isLowerAlnum, Bool.or_eq_true, Bool.and_eq_true,
    decide_eq_true_eq] at h
  simp only [pyIsSpace, Bool.or_eq_false_iff, decide_eq_false_iff_not]
  omega

/-- C5 counterexample: `_normalize_title` is not idempotent.  On `"t o"` the
tokens `t` and `o` are joined without a separator into `"to"`, which a second
normalization drops as a stopword: `normalize("t o") = "to"` but
`normalize(normalize("t o")) = ""`. -/
theorem normalize_title_not_idempotent :
    normalizeTitle "t o" = "to" ∧
    normalizeTitle (normalizeTitle "t o") = "" ∧
    normalizeTitle (normalizeTitle "t o") ≠ normalizeTitle "t o" := by
  refine ⟨by decide, by decide, by decide⟩

/-- C5 (amended): `_normalize_title` is idempotent at every string whose
normalized form is not itself one of the seven stopwords (the only failures
are inputs like "t o" whose separator-free join forms a stopword, which a
second pass maps to `""`). -/
theorem normalize_title_idempotent_unless_stopword (x : String)
    (h : normalizeTitle x ∉ STOPWORDS) :
    normalizeTitle (normalizeTitle x) = normalizeTitle x := by
  have hchars : ∀ c ∈ (normalizeTitle x).data, isLowerAlnum c = true :=
    fun c hc => isLowerAlnum_of_mem_normalizeTitle x c hc
  have hkeep : ∀ c ∈ (normalizeTitle x).data, keepChar c = true := by
    intro c hc
    simp [keepChar, hchars c hc]
  have hnospace : ∀ c ∈ (normalizeTitle x).data, pyIsSpace c = false :=
    fun c hc => not_space_of_isLowerAlnum c (hchars c hc)
  have hlower : pyLower (normalizeTitle x).data = (normalizeTitle x).data :=
    pyLower_fixed _ hchars
  have hsub : subRuns (pyLower (normalizeTitle x).data) false
      = (normalizeTitle x).data := by
    rw [hlower]
    exact subRuns_fixed _ hkeep false
  have hsplit : pySplit (normalizeTitle x).data =
      if (normalizeTitle x).data = [] then [] else [(normalizeTitle x).data] := by
    have := splitWsAux_nospace (normalizeTitle x).data hnospace []
    simpa [pySplit] using this
  by_cases hnil : (normalizeTitle x).data = []
  · show String.mk (normalizeTokens (normalizeTitle x).data).flatten
      = normalizeTitle x
    rw [hnil]
    show String.mk (normalizeTokens []).flatten = normalizeTitle x
    have : normalizeTitle x = String.mk (normalizeTitle x).data := rfl
    rw [this, hnil]
    rfl
  · show String.mk (normalizeTokens (normalizeTitle x).data).flatten
      = normalizeTitle x
    have hmem : (normalizeTitle x).data ∉ stopwordChars := by
      intro hcontra
      exact h ((data_mem_stopwordChars_iff _).mp hcontra)
    have htokens : normalizeTokens (normalizeTitle x).data
        = [(normalizeTitle x).data] := by
      simp only [normalizeTokens, hsub, hsplit, if_neg hnil]
      simp [hnil, hmem]
    rw [htokens]
    simp

/-- Witness for `normalize_title_idempotent_unless_stopword` at
"Please call the client" (normalized form "callclient"). -/
theorem normalize_title_idempotent_witness :
    normalizeTitle "Please call the client" ∉ STOPWORDS ∧
    normalizeTitle (normalizeTitle "Please call the client")
      = normalizeTitle "Please call the client" :=
  ⟨by decide, normalize_title_idempotent_unless_stopword _ (by decide)⟩

/-- `FlowRepository.create` either fails (no owned context) or returns
exactly the inserted document, whose `title` is the candidate's title. -/
theorem FlowRepo.create_shape (flows : List Flow) (contexts : List Context)
    (user_id context_id : String) (flow_data : FlowCreate) (now : Nat) :
    (FlowRepo.create flows contexts user_id context_id flow_data now).1 = none ∨
    (FlowRepo.create flows contexts user_id context_id flow_data now).1
      = some
        { id := "oid-" ++ toString flows.length
          context_id := context_id
          user_id := user_id
          title := flow_data.title
          description := flow_data.description
          priority := flow_data.priority
          is_completed := false
          due_date := flow_data.due_date
          reminder_enabled := flow_data.reminder_enabled
          created_at := now
          updated_at := now
          completed_at := none } := by
  unfold FlowRepo.create
  cases ContextRepo.get_by_id contexts context_id user_id
  · left; rfl
  · right; rfl

/-- Invariant of the Step-3 creation loop, generalized over the running key
set: the created flows carry pairwise-distinct normalized titles, none of
which was in the key set at loop entry, and none of which had a live
dismissal marker. -/
theorem createExtractedFlows_dedup (context_id user_id : String)
    (extracted : List FlowCreate) :
    ∀ (keys : List String) (dismissed : Cache DismissMarker)
      (contexts : List Context) (flows : List Flow) (now : Nat),
    ((createExtractedFlows context_id user_id extracted keys dismissed
        contexts flows now).1.map (fun f => normalizeTitle f.title)).Nodup ∧
    ∀ f ∈ (createExtractedFlows context_id user_id extracted keys dismissed
        contexts flows now).1,
      normalizeTitle f.title ∉ keys ∧
      Cache.get dismissed
        ("dismissed:" ++ context_id ++ ":" ++ normalizeTitle f.title) now
        = none := by
  induction extracted with
  | nil =>
    intro keys dismissed contexts flows now
    simp [createExtractedFlows]
  | cons flow rest ih =>
    intro keys dismissed contexts flows now
    cases hdis : Cache.get dismissed
        ("dismissed:" ++ context_id ++ ":" ++ normalizeTitle flow.title) now with
    | some m =>
      have hstep : createExtractedFlows context_id user_id (flow :: rest) keys
          dismissed contexts flows now
          = createExtractedFlows context_id user_id rest keys dismissed
            contexts flows now := by
        simp only [createExtractedFlows, hdis]
      rw [hstep]
      exact ih keys dismissed contexts flows now
    | none =>
      by_cases hmem : normalizeTitle flow.title ∈ keys
      · have hstep : createExtractedFlows context_id user_id (flow :: rest)
            keys dismissed contexts flows now
            = createExtractedFlows context_id user_id rest keys dismissed
              contexts flows now := by
          simp only [createExtractedFlows, hdis, if_pos hmem]
        rw [hstep]
        exact ih keys dismissed contexts flows now
      · rcases hfull : FlowRepo.create flows contexts user_id context_id flow
            now with ⟨o, flows2⟩
        cases o with
        | none =>
          have hstep : createExtractedFlows context_id user_id (flow :: rest)
              keys dismissed contexts flows now
              = createExtractedFlows context_id user_id rest keys dismissed
                contexts flows2 now := by
            simp only [createExtractedFlows, hdis, if_neg hmem, hfull]
          rw [hstep]
          exact ih keys dismissed contexts flows2 now
        | some created =>
          have htitle : created.title = flow.title := by
            rcases FlowRepo.create_shape flows contexts user_id context_id
                flow now with hn | hs
            · rw [hfull] at hn
              simp at hn
            · rw [hfull] at hs
              simp only [Option.some.injEq] at hs
              rw [hs]
          rcases hrec : createExtractedFlows context_id user_id rest
              (normalizeTitle flow.title :: keys) dismissed contexts flows2
              now with ⟨createdRest, keys3, flows3⟩
          have hstep : createExtractedFlows context_id user_id (flow :: rest)
              keys dismissed contexts flows now
              = (created :: createdRest, keys3, flows3) := by
            simp only [createExtractedFlows, hdis, if_neg hmem, hfull, hrec]
          rw [hstep]
          have hih := ih (normalizeTitle flow.title :: keys) dismissed contexts
            flows2 now
          rw [hrec] at hih
          obtain ⟨hnodup, hall⟩ := hih
          refine ⟨?_, ?_⟩
          · simp only [List.map_cons, List.nodup_cons]
            refine ⟨?_, hnodup⟩
            intro hx
            obtain ⟨g, hg, hgn⟩ := List.mem_map.mp hx
            have := (hall g hg).1
            rw [hgn, htitle] at this
            exact this (List.mem_cons_self _ _)
          · intro f hf
            rcases List.mem_cons.mp hf with rfl | hf2
            · rw [htitle]
              exact ⟨hmem, hdis⟩
            · obtain ⟨hk, hd⟩ := hall f hf2
              exact ⟨fun hc => hk (List.mem_cons_of_mem _ hc), hd⟩

/-- C6: within one extraction pass, at most one task is persisted per
normalized title: the created flows carry pairwise-distinct normalized
titles, none equal to a visible (non-completed) task's normalized title from
the pre-stream snapshot, and none with a live (non-expired) dismissal cache
entry `dismissed:{context_id}:{normalized_title}` at the time of the pass. -/
theorem extraction_pass_dedup_invariant (context_id user_id : String)
    (extracted : List FlowCreate) (visibleFlows : List Flow)
    (dismissed : Cache DismissMarker) (contexts : List Context)
    (flows : List Flow) (now : Nat) :
    ((createExtractedFlows context_id user_id extracted
        (existingTitleKeys visibleFlows) dismissed contexts flows
        now).1.map (fun f => normalizeTitle f.title)).Nodup ∧
    (∀ f ∈ (createExtractedFlows context_id user_id extracted
        (existingTitleKeys visibleFlows) dismissed contexts flows now).1,
      (∀ v ∈ visibleFlows, normalizeTitle f.title ≠ normalizeTitle v.title) ∧
      Cache.get dismissed
        ("dismissed:" ++ context_id ++ ":" ++ normalizeTitle f.title) now
        = none) := by
  obtain ⟨hnodup, hall⟩ := createExtractedFlows_dedup context_id user_id
    extracted (existingTitleKeys visibleFlows) dismissed contexts flows now
  refine ⟨hnodup, ?_⟩
  intro f hf
  obtain ⟨hk, hd⟩ := hall f hf
  refine ⟨?_, hd⟩
  intro v hv hcontra
  apply hk
  rw [hcontra]
  exact List.mem_map.mpr ⟨v, hv, rfl⟩

/-- Membership in `dedupFirstAux`: exactly the input elements not already
seen. -/
theorem dedupFirstAux_mem (x : Nat) : ∀ (l seen : List Nat),
    (x ∈ dedupFirstAux l seen ↔ x ∈ l ∧ x ∉ seen) := by
  intro l
  induction l with
  | nil => intro seen; simp [dedupFirstAux]
  | cons y rest ih =>
    intro seen
    by_cases hy : y ∈ seen
    · simp only [dedupFirstAux, if_pos hy]
      rw [ih seen]
      constructor
      · rintro ⟨h1, h2⟩
        exact ⟨List.mem_cons_of_mem _ h1, h2⟩
      · rintro ⟨h1, h2⟩
        rcases List.mem_cons.mp h1 with rfl | h1'
        · exact absurd hy h2
        · exact ⟨h1', h2⟩
    · simp only [dedupFirstAux, if_neg hy]
      constructor
      · intro hmem
        rcases List.mem_cons.mp hmem with rfl | h1
        · exact ⟨List.mem_cons_self _ _, hy⟩
        · obtain ⟨ha, hb⟩ := (ih (y :: seen)).mp h1
          exact ⟨List.mem_cons_of_mem _ ha,
            fun hc => hb (List.mem_cons_of_mem _ hc)⟩
      · rintro ⟨h1, h2⟩
        rcases List.mem_cons.mp h1 with rfl | h1'
        · exact List.mem_cons_self _ _
        · by_cases hxy : x = y
          · subst hxy
            exact List.mem_cons_self _ _
          · refine List.mem_cons_of_mem _ ((ih (y :: seen)).mpr ⟨h1', ?_⟩)
            intro hc
            rcases List.mem_cons.mp hc with h | h
            · exact hxy h
            · exact h2 h

/-- Appending one element to the input of `dedupFirstAux` appends it to the
output exactly when it is new. -/
theorem dedupFirstAux_append (x : Nat) : ∀ (l seen : List Nat),
    dedupFirstAux (l ++ [x]) seen
      = dedupFirstAux l seen ++ (if x ∈ seen ∨ x ∈ l then [] else [x]) := by
  intro l
  induction l with
  | nil =>
    intro seen
    by_cases hx : x ∈ seen
    · simp [dedupFirstAux, hx]
    · simp [dedupFirstAux, hx]
  | cons y rest ih =>
    intro seen
    by_cases hy : y ∈ seen
    · simp only [List.cons_append, dedupFirstAux, if_pos hy, List.append_eq]
      rw [ih seen]
      have hcond : (x ∈ seen ∨ x ∈ rest) ↔ (x ∈ seen ∨ x ∈ y :: rest) := by
        constructor
        · rintro (h | h)
          · exact Or.inl h
          · exact Or.inr (List.mem_cons_of_mem _ h)
        · rintro (h | h)
          · exact Or.inl h
          · rcases List.mem_cons.mp h with rfl | h'
            · exact Or.inl hy
            · exact Or.inr h'
      rw [if_congr hcond rfl rfl]
    · simp only [List.cons_append, dedupFirstAux, if_neg hy, List.append_eq]
      rw [ih (y :: seen)]
      have hcond : (x ∈ y :: seen ∨ x ∈ rest) ↔ (x ∈ seen ∨ x ∈ y :: rest) := by
        constructor
        · rintro (h | h)
          · rcases List.mem_cons.mp h with rfl | h'
            · exact Or.inr (List.mem_cons_self _ _)
            · exact Or.inl h'
          · exact Or.inr (List.mem_cons_of_mem _ h)
        · rintro (h | h)
          · exact Or.inl (List.mem_cons_of_mem _ h)
          · rcases List.mem_cons.mp h with rfl | h'
            · exact Or.inl (List.mem_cons_self _ _)
            · exact Or.inr h'
      rw [if_congr hcond rfl rfl]

/-- `find?` over an append whose left part already matches. -/
theorem find?_append_left {α : Type} {l1 : List α} {p : α → Bool} {x : α}
    (h : l1.find? p = some x) (l2 : List α) :
    (l1 ++ l2).find? p = some x := by
  induction l1 with
  | nil => simp at h
  | cons a rest ih =>
    cases hpa : p a
    · simp only [List.find?, hpa] at h
      simpa [List.find?, hpa] using ih h
    · simp only [List.find?, hpa] at h
      simpa [List.find?, hpa] using h

/-- `find?` over an append whose left part has no match. -/
theorem find?_append_right {α : Type} {l1 : List α} {p : α → Bool}
    (h : l1.find? p = none) (l2 : List α) :
    (l1 ++ l2).find? p = l2.find? p := by
  induction l1 with
  | nil => simp
  | cons a rest ih =>
    cases hpa : p a
    · simp only [List.find?, hpa] at h
      simpa [List.find?, hpa] using ih h
    · simp [List.find?, hpa] at h

/-- An index is in `tdIndices` iff some delta carries it. -/
theorem mem_tdIndices (tds : List ToolCallDelta) (idx : Nat) :
    idx ∈ tdIndices tds ↔ idx ∈ tds.map (fun t => t.index) := by
  unfold tdIndices dedupFirst
  rw [dedupFirstAux_mem]
  simp

/-- The first-delta lookup succeeds exactly on carried indices. -/
theorem tdFirstFor_isSome_iff (tds : List ToolCallDelta) (idx : Nat) :
    (tdFirstFor tds idx).isSome ↔ idx ∈ tds.map (fun t => t.index) := by
  unfold tdFirstFor
  rw [List.find?_isSome]
  simp only [List.mem_map, beq_iff_eq]

/-- The fragments of an index never carried are empty. -/
theorem tdFragments_nil_of_not_mem (tds : List ToolCallDelta) (idx : Nat)
    (h : idx ∉ tds.map (fun t => t.index)) : tdFragments tds idx = [] := by
  unfold tdFragments
  rw [List.filterMap_eq_nil_iff]
  intro tc htc
  have hne : (tc.index == idx) = false := by
    rw [beq_eq_false_iff_ne]
    intro hc
    exact h (List.mem_map.mpr ⟨tc, htc, hc⟩)
  simp [hne]

/-- Fragments over an appended delta. -/
theorem tdFragments_append (tds : List ToolCallDelta) (tc : ToolCallDelta)
    (idx : Nat) :
    tdFragments (tds ++ [tc]) idx
      = tdFragments tds idx ++
        (if tc.index == idx then (fragOf tc).toList else []) := by
  unfold tdFragments
  rw [List.filterMap_append]
  congr 1
  have hsingle : ∀ (f : ToolCallDelta → Option String) (a : ToolCallDelta),
      List.filterMap f [a] = (f a).toList := by
    intro f a
    cases hfa : f a <;> simp [List.filterMap_cons, hfa]
  rw [hsingle]
  cases hc : (tc.index == idx)
  · simp [hc]
  · simp [hc]

/-- `joinAll` over an appended fragment. -/
theorem joinAll_append (l : List String) (a : String) :
    joinAll (l ++ [a]) = joinAll l ++ a := by
  unfold joinAll
  rw [List.foldl_append]
  rfl

/-- `bufferContains` on the predicted buffer tests index membership. -/
theorem bufferContains_specBuffer (tds : List ToolCallDelta) (idx : Nat) :
    bufferContains (specBuffer tds) idx = true
      ↔ idx ∈ tds.map (fun t => t.index) := by
  unfold bufferContains specBuffer
  rw [List.any_eq_true]
  constructor
  · rintro ⟨e, he, hbeq⟩
    obtain ⟨i, hi, rfl⟩ := List.mem_map.mp he
    rw [beq_iff_eq] at hbeq
    have hieq : i = idx := hbeq
    rw [← hieq]
    exact (mem_tdIndices tds i).mp hi
  · intro h
    refine ⟨(idx, ⟨tdIdFor tds idx, tdNameFor tds idx,
      joinAll (tdFragments tds idx)⟩), ?_, by simp⟩
    exact List.mem_map.mpr ⟨idx, (mem_tdIndices tds idx).mpr h, rfl⟩

/-- `stepToolCall` rewritten through `fragOf`. -/
theorem stepToolCall_eq (buf : List (Nat × ToolCallAccum))
    (tc : ToolCallDelta) :
    stepToolCall buf tc
      = (match fragOf tc with
         | some a =>
           bufferAppendArgs
             (if !bufferContains buf tc.index then
               buf ++ [(tc.index,
                 { id := tc.id.getD ""
                   name := match tc.function with
                           | some f => f.name
                           | none => some ""
                   arguments := "" })]
              else buf) tc.index a
         | none =>
           (if !bufferContains buf tc.index then
             buf ++ [(tc.index,
               { id := tc.id.getD ""
                 name := match tc.function with
                         | some f => f.name
                         | none => some ""
                 arguments := "" })]
            else buf)) := by
  unfold stepToolCall fragOf
  obtain ⟨tcindex, tcid, tcfn⟩ := tc
  cases tcfn with
  | none => rfl
  | some f =>
    obtain ⟨fname, fargs⟩ := f
    cases fargs with
    | none => rfl
    | some a =>
      by_cases ha : a = ""
      · simp [ha]
      · simp [ha]

/-- Pushing `stepToolCall` through the predicted buffer advances the
prediction by one delta. -/
theorem stepToolCall_specBuffer (tds : List ToolCallDelta)
    (tc : ToolCallDelta) :
    stepToolCall (specBuffer tds) tc = specBuffer (tds ++ [tc]) := by
  have hmap : (tds ++ [tc]).map (fun t => t.index)
      = tds.map (fun t => t.index) ++ [tc.index] := by
    simp
  by_cases hin : tc.index ∈ tds.map (fun t => t.index)
  · -- the index is already buffered: no new entry
    have hcont : bufferContains (specBuffer tds) tc.index = true :=
      (bufferContains_specBuffer tds tc.index).mpr hin
    have hidx : tdIndices (tds ++ [tc]) = tdIndices tds := by
      unfold tdIndices dedupFirst
      rw [hmap, dedupFirstAux_append]
      simp [hin]
    have hpoint : ∀ i ∈ tdIndices tds,
        tdIdFor (tds ++ [tc]) i = tdIdFor tds i ∧
        tdNameFor (tds ++ [tc]) i = tdNameFor tds i := by
      intro i hi
      have hsome : (tdFirstFor tds i).isSome :=
        (tdFirstFor_isSome_iff tds i).mpr ((mem_tdIndices tds i).mp hi)
      obtain ⟨t, ht⟩ := Option.isSome_iff_exists.mp hsome
      have happ : tdFirstFor (tds ++ [tc]) i = some t :=
        find?_append_left ht [tc]
      unfold tdIdFor tdNameFor
      rw [happ, ht]
      exact ⟨rfl, rfl⟩
    rw [stepToolCall_eq, hcont]
    cases hf : fragOf tc with
    | none =>
      simp only [Bool.not_true, Bool.false_eq_true, if_false]
      unfold specBuffer
      rw [hidx]
      refine (List.map_congr_left ?_).symm
      intro i hi
      obtain ⟨hid, hname⟩ := hpoint i hi
      rw [hid, hname, tdFragments_append]
      cases hc : (tc.index == i)
      · simp
      · simp [hf]
    | some a =>
      simp only [Bool.not_true, Bool.false_eq_true, if_false]
      unfold specBuffer
      rw [hidx]
      unfold bufferAppendArgs
      rw [List.map_map]
      refine (List.map_congr_left ?_).symm
      intro i hi
      obtain ⟨hid, hname⟩ := hpoint i hi
      simp only [Function.comp]
      cases hc : (i == tc.index)
      · have hc2 : (tc.index == i) = false := by
          rw [beq_eq_false_iff_ne] at hc ⊢
          exact fun h => hc h.symm
        simp only [Bool.false_eq_true, if_false]
        rw [hid, hname, tdFragments_append, hc2]
        simp
      · have hieq : i = tc.index := by
          rwa [beq_iff_eq] at hc
        simp only [if_true]
        rw [hid, hname, tdFragments_append]
        have hc2 : (tc.index == i) = true := by
          rw [beq_iff_eq]
          exact hieq.symm
        rw [hc2]
        simp only [if_true, hf, Option.toList]
        rw [joinAll_append]
  · -- a new index: a fresh entry is appended at the end of the buffer
    have hcont : bufferContains (specBuffer tds) tc.index = false := by
      cases hc : bufferContains (specBuffer tds) tc.index
      · rfl
      · exact absurd ((bufferContains_specBuffer tds tc.index).mp hc) hin
    have hidx : tdIndices (tds ++ [tc]) = tdIndices tds ++ [tc.index] := by
      unfold tdIndices dedupFirst
      rw [hmap, dedupFirstAux_append]
      simp [hin]
    have hfirstnone : tdFirstFor tds tc.index = none := by
      cases hc : tdFirstFor tds tc.index
      · rfl
      · exfalso
        apply hin
        rw [← tdFirstFor_isSome_iff]
        simp [hc]
    have hfirstnew : tdFirstFor (tds ++ [tc]) tc.index = some tc := by
      unfold tdFirstFor at hfirstnone ⊢
      rw [find?_append_right hfirstnone]
      simp [List.find?]
    have hpoint : ∀ i ∈ tdIndices tds,
        tdIdFor (tds ++ [tc]) i = tdIdFor tds i ∧
        tdNameFor (tds ++ [tc]) i = tdNameFor tds i ∧
        tdFragments (tds ++ [tc]) i = tdFragments tds i ∧
        (i == tc.index) = false := by
      intro i hi
      have himem := (mem_tdIndices tds i).mp hi
      have hne : (i == tc.index) = false := by
        rw [beq_eq_false_iff_ne]
        rintro rfl
        exact hin himem
      have hsome : (tdFirstFor tds i).isSome :=
        (tdFirstFor_isSome_iff tds i).mpr himem
      obtain ⟨t, ht⟩ := Option.isSome_iff_exists.mp hsome
      have happ : tdFirstFor (tds ++ [tc]) i = some t :=
        find?_append_left ht [tc]
      refine ⟨?_, ?_, ?_, hne⟩
      · unfold tdIdFor; rw [happ, ht]
      · unfold tdNameFor; rw [happ, ht]
      · rw [tdFragments_append]
        have hne2 : (tc.index == i) = false := by
          rw [beq_eq_false_iff_ne] at hne ⊢
          exact fun h => hne h.symm
        simp [hne2]
    have hfragnew : tdFragments (tds ++ [tc]) tc.index
        = (fragOf tc).toList := by
      rw [tdFragments_append]
      rw [tdFragments_nil_of_not_mem tds tc.index hin]
      simp
    rw [stepToolCall_eq, hcont]
    cases hf : fragOf tc with
    | none =>
      simp only [Bool.not_false, if_true]
      unfold specBuffer
      rw [hidx, List.map_append]
      congr 1
      · refine (List.map_congr_left ?_).symm
        intro i hi
        obtain ⟨hid, hname, hfrag, _⟩ := hpoint i hi
        rw [hid, hname, hfrag]
      · simp only [List.map_cons, List.map_nil]
        unfold tdIdFor tdNameFor
        rw [hfirstnew, hfragnew, hf]
        rfl
    | some a =>
      simp only [Bool.not_false, if_true]
      unfold bufferAppendArgs
      rw [List.map_append]
      unfold specBuffer
      rw [hidx, List.map_append, List.map_map]
      congr 1
      · refine (List.map_congr_left ?_).symm
        intro i hi
        obtain ⟨hid, hname, hfrag, hne⟩ := hpoint i hi
        simp only [Function.comp, hne, Bool.false_eq_true, if_false]
        rw [hid, hname, hfrag]
      · simp only [List.map_cons, List.map_nil, beq_self_eq_true, if_true]
        unfold tdIdFor tdNameFor
        rw [hfirstnew, hfragnew, hf]
        rfl

/-- The chunk fold yields forwarded texts plus the buffer fold over the flat
delta list. -/
theorem foldl_processStreamChunk (chunks : List ChatChunk) :
    ∀ (events : List AIEvent) (buf : List (Nat × ToolCallAccum)),
      chunks.foldl processStreamChunk (events, buf)
        = (events ++ (textsOf chunks).map AIEvent.text,
           (toolDeltasOf chunks).foldl stepToolCall buf) := by
  induction chunks with
  | nil =>
    intro events buf
    simp [textsOf, deltasOf, toolDeltasOf]
  | cons ch rest ih =>
    intro events buf
    rw [List.foldl_cons]
    cases hh : ch.choices.head? with
    | none =>
      have hd : deltasOf (ch :: rest) = deltasOf rest := by
        simp [deltasOf, List.filterMap_cons, hh]
      have hstep : processStreamChunk (events, buf) ch = (events, buf) := by
        simp [processStreamChunk, hh]
      rw [hstep, ih]
      unfold textsOf toolDeltasOf
      rw [hd]
    | some d =>
      have hd : deltasOf (ch :: rest) = d :: deltasOf rest := by
        simp [deltasOf, List.filterMap_cons, hh]
      have htexts : textsOf (ch :: rest) = textPiece d ++ textsOf rest := by
        unfold textsOf
        rw [hd, List.filterMap_cons]
        unfold textPiece
        cases hc : d.content with
        | none => simp
        | some c =>
          by_cases hce : c = ""
          · simp [hce]
          · simp [hce]
      have htds : toolDeltasOf (ch :: rest)
          = d.tool_calls.getD [] ++ toolDeltasOf rest := by
        unfold toolDeltasOf
        rw [hd, List.foldr_cons]
      have hstep : processStreamChunk (events, buf) ch
          = (events ++ (textPiece d).map AIEvent.text,
             (d.tool_calls.getD []).foldl stepToolCall buf) := by
        unfold processStreamChunk
        rw [hh]
        obtain ⟨dc, dt⟩ := d
        cases dc with
        | none =>
          cases dt with
          | none => simp [textPiece]
          | some tcs => simp [textPiece]
        | some c =>
          by_cases hce : c = ""
          · cases dt with
            | none => simp [textPiece, hce]
            | some tcs => simp [textPiece, hce]
          · cases dt with
            | none => simp [textPiece, hce]
            | some tcs => simp [textPiece, hce]
      rw [hstep, ih]
      rw [htexts, htds, List.map_append, List.foldl_append,
        List.append_assoc]

/-- C8: `_stream_openai` first forwards exactly the non-empty text contents
in stream order, and only after the provider stream has ended emits one
completed `tool_call` event per distinct stream index (in first-appearance
order), whose id and name come from the index's first delta and whose
arguments are the concatenation, in arrival order, of all fragments buffered
under that index - never interleaving a `tool_call` event before the
stream's end. -/
theorem stream_openai_reassembles_tool_calls (chunks : List ChatChunk) :
    stream_openai_events chunks
      = (textsOf chunks).map AIEvent.text ++
        (tdIndices (toolDeltasOf chunks)).map (fun idx =>
          AIEvent.tool_call (tdIdFor (toolDeltasOf chunks) idx)
            (tdNameFor (toolDeltasOf chunks) idx)
            (joinAll (tdFragments (toolDeltasOf chunks) idx))) := by
  have hbuffer : ∀ tds : List ToolCallDelta,
      tds.foldl stepToolCall [] = specBuffer tds := by
    intro tds
    induction tds using List.reverseRecOn with
    | nil => rfl
    | append_singleton tds tc ih =>
      rw [List.foldl_append, List.foldl_cons, List.foldl_nil, ih,
        stepToolCall_specBuffer]
  unfold stream_openai_events
  rw [foldl_processStreamChunk chunks [] [], hbuffer]
  show ([] ++ (textsOf chunks).map AIEvent.text) ++
      (specBuffer (toolDeltasOf chunks)).map
        (fun e => AIEvent.tool_call e.2.id e.2.name e.2.arguments)
      = _
  unfold specBuffer
  rw [List.map_map, List.nil_append]
  rfl

end MyFlow
